import Mathlib

/-!
# Query translation and time-range validation (`api/lql.go`)

A shallow embedding of `LQLQuery.Validate`, `Translate`, `TranslateQuery`,
`TranslateTime` and `ValidateRange`, together with executable models of the Go
standard-library functions they call (`time.Parse` with the layout
`time.RFC3339`, `Time.Format`, `time.Unix`, `Time.After`, `strconv.ParseInt`,
`json.Unmarshal` into an `LQLQuery`, `regexp.MatchString` with the pattern
`reLQL`).

Conventions.
* A Go `string` is a Lean `String`; the models read it character by character.
  Every character the models test for is ASCII, so reading code points instead
  of bytes does not change any outcome on valid UTF-8 text.
* A Go `error` result is an `Option GoError`, `none` standing for `nil`.
* A method with a pointer receiver returns the updated receiver next to its
  error.
* `time.Now()` and `lwtime.ParseRelative` (a package of this repository whose
  source is not part of the files studied here) are read from a `World`.
-/

namespace LQL

/-! ## Machine integers -/

/-- Conversion to `uint64`: the value modulo `2^64`. -/
def toUint64 (x : Int) : Nat := (x % 18446744073709551616).toNat

/-- Conversion to `int64`: the value wrapped into `[-2^63, 2^63)`. -/
def toInt64 (x : Int) : Int :=
  (x + 9223372036854775808) % 18446744073709551616 - 9223372036854775808

/-! ## Errors and instants -/

/-- The `error` values that can leave the functions of `lql.go`. -/
inductive GoError where
  /-- Built by `errors.New(text)`; `Error()` returns `text`. -/
  | errorsNew (text : String)
  /-- The `*time.ParseError` returned by `time.Parse(time.RFC3339, value)`; its
  `Error()` text starts with `parsing time`. -/
  | parseError (value : String)
deriving DecidableEq, Repr

/-- An instant as `time.Time` stores it for the comparisons and the formatting
used here: seconds since the Unix epoch and nanoseconds within the second. -/
structure Time where
  sec : Int
  nsec : Nat
deriving DecidableEq, Repr

/-- The clock and the relative-time parser, as seen by one call. -/
structure World where
  /-- The value of `time.Now()`. -/
  Now : Time
  /-- The value of `lwtime.ParseRelative(s)`, `none` when it returns an error. -/
  ParseRelative : String → Option Time

/-- Go `Time.After`, for instants without a monotonic clock reading. -/
def Time.After (t u : Time) : Bool :=
  decide (t.sec > u.sec) || (decide (t.sec = u.sec) && decide (t.nsec > u.nsec))

/-! ## Calendar arithmetic of package `time` -/

def secondsPerDay : Nat := 86400
def daysPer400Years : Nat := 365 * 400 + 97
def daysPer100Years : Nat := 365 * 100 + 24
def daysPer4Years : Nat := 365 * 4 + 1

/-- Go `absoluteZeroYear`. -/
def absoluteZeroYear : Int := -292277022399

/-- Go `unixToInternal + internalToAbsolute`. -/
def unixToAbsolute : Int := 9223372028715321600

/-- Go `daysBefore[m]`: days in a non-leap year before month `m + 1`. -/
def daysBefore (m : Nat) : Nat :=
  match m with
  | 0 => 0
  | 1 => 31
  | 2 => 59
  | 3 => 90
  | 4 => 120
  | 5 => 151
  | 6 => 181
  | 7 => 212
  | 8 => 243
  | 9 => 273
  | 10 => 304
  | 11 => 334
  | _ => 365

/-- Go `isLeap`. -/
def isLeap (year : Int) : Bool :=
  year % 4 == 0 && (year % 100 != 0 || year % 400 == 0)

/-- Go `daysIn`. -/
def daysIn (m : Nat) (year : Int) : Nat :=
  if m = 2 ∧ isLeap year = true then 29 else daysBefore m - daysBefore (m - 1)

/-- Go `norm`: bring `lo` into `[0, base)`, carrying into `hi`. -/
def norm (hi lo base : Int) : Int × Int :=
  let (hi, lo) :=
    if lo < 0 then
      let n := (-lo - 1).tdiv base + 1
      (hi - n, lo + n * base)
    else (hi, lo)
  if lo ≥ base then
    let n := lo.tdiv base
    (hi + n, lo - n * base)
  else (hi, lo)

/-- Go `time.Date(year, month, day, hour, min, sec, nsec, time.UTC)`. -/
def Date (year month day hour min sec nsec : Int) : Time :=
  let m := month - 1
  let (year, m) := norm year m 12
  let month := m + 1
  let (sec, nsec) := norm sec nsec 1000000000
  let (min, sec) := norm min sec 60
  let (hour, min) := norm hour min 60
  let (day, hour) := norm day hour 24
  let y := toUint64 (year - absoluteZeroYear)
  -- days since the absolute epoch
  let n := y / 400
  let y := y - 400 * n
  let d := daysPer400Years * n
  let n := y / 100
  let y := y - 100 * n
  let d := d + daysPer100Years * n
  let n := y / 4
  let y := y - 4 * n
  let d := d + daysPer4Years * n
  let n := y
  let d := d + 365 * n
  let d := d + daysBefore (month - 1).toNat
  let d := if isLeap year && decide (month ≥ 3) then d + 1 else d
  let d := toUint64 (d + (day - 1))
  let abs := toUint64 (d * secondsPerDay + (hour * 3600 + min * 60 + sec))
  let unix := toInt64 (toInt64 abs + (-unixToAbsolute))
  { sec := unix, nsec := nsec.toNat }

/-- Go `absDate(abs, true)`: year, month and day of month of an absolute time. -/
def absDate (abs : Nat) : Int × Nat × Nat :=
  let d := abs / secondsPerDay
  let n := d / daysPer400Years
  let y := 400 * n
  let d := d - daysPer400Years * n
  let n := d / daysPer100Years
  let n := n - n / 4
  let y := y + 100 * n
  let d := d - daysPer100Years * n
  let n := d / daysPer4Years
  let y := y + 4 * n
  let d := d - daysPer4Years * n
  let n := d / 365
  let n := n - n / 4
  let y := y + n
  let d := d - 365 * n
  let year : Int := toInt64 (toInt64 y + absoluteZeroYear)
  let day := d
  if isLeap year && decide (day = 31 + 29 - 1) then (year, 2, 29)
  else
    let day := if isLeap year && decide (day > 31 + 29 - 1) then day - 1 else day
    let month := day / 31
    let stop := daysBefore (month + 1)
    if day ≥ stop then (year, month + 2, day - stop + 1)
    else (year, month + 1, day - daysBefore month + 1)

/-- Go `absClock`: hour, minute and second within the day. -/
def absClock (abs : Nat) : Nat × Nat × Nat :=
  let sec := abs % secondsPerDay
  let hour := sec / 3600
  let sec := sec - hour * 3600
  let min := sec / 60
  let sec := sec - min * 60
  (hour, min, sec)

/-! ## Formatting: `t.UTC().Format(time.RFC3339)` -/

/-- The decimal digits of `u`, least significant first dropped into the front of
`acc`, as the loop of Go `appendInt` fills its 20-byte buffer. -/
def digitsLoop : Nat → Nat → List Char → List Char
  | 0, u, acc => Char.ofNat (48 + u % 10) :: acc
  | fuel + 1, u, acc =>
    if u ≥ 10 then digitsLoop fuel (u / 10) (Char.ofNat (48 + u % 10) :: acc)
    else Char.ofNat (48 + u) :: acc

/-- Go `appendInt(b, x, width)`: sign, zero padding to `width`, digits. -/
def appendInt (x : Int) (width : Nat) : List Char :=
  let ds := digitsLoop 19 x.natAbs []
  (if x < 0 then ['-'] else []) ++ List.replicate (width - ds.length) '0' ++ ds

/-- Go `t.UTC().Format(time.RFC3339)`. -/
def formatRFC3339UTC (t : Time) : String :=
  let abs := toUint64 (t.sec + unixToAbsolute)
  let date := absDate abs
  let clock := absClock abs
  String.mk (appendInt date.1 4 ++ '-' :: appendInt date.2.1 2 ++ '-' :: appendInt date.2.2 2
    ++ 'T' :: appendInt clock.1 2 ++ ':' :: appendInt clock.2.1 2
    ++ ':' :: appendInt clock.2.2 2 ++ ['Z'])

/-- Go `time.Unix(sec, nsec)`. -/
def Unix (sec nsec : Int) : Time :=
  if nsec < 0 ∨ nsec ≥ 1000000000 then
    let n := nsec.tdiv 1000000000
    let sec := toInt64 (sec + n)
    let nsec := toInt64 (nsec - n * 1000000000)
    if nsec < 0 then { sec := toInt64 (sec - 1), nsec := (nsec + 1000000000).toNat }
    else { sec := sec, nsec := nsec.toNat }
  else { sec := sec, nsec := nsec.toNat }

/-! ## Parsing: `time.Parse(time.RFC3339, value)`

The layout `2006-01-02T15:04:05Z07:00` is the chunk sequence `stdLongYear`,
`-`, `stdZeroMonth`, `-`, `stdZeroDay`, `T`, `stdHour`, `:`, `stdZeroMinute`,
`:`, `stdZeroSecond`, `stdISO8601ColonTZ`. The model follows the general
layout-driven parser chunk by chunk (the dedicated RFC 3339 fast path of recent
releases accepts a subset of these inputs with the same results).

Three details differ between Go releases; the model takes the current ones: a
comma is accepted next to the period before a fractional second, fractional
digits past the ninth are dropped, and a zone offset with an hour above 24 or a
minute above 60 is a range error. None of them bears on a text without a
fraction whose offset is `Z` or at most a day. -/

/-- Go `isDigit` on one character. -/
def isDigit (c : Char) : Bool := decide (48 ≤ c.toNat) && decide (c.toNat ≤ 57)

/-- The value of a decimal digit character. -/
def digitVal (c : Char) : Nat := c.toNat - 48

/-- Go `getnum`: a one- or two-digit number, exactly two digits when `fixed`. -/
def getnum (s : List Char) (fixed : Bool) : Option (Nat × List Char) :=
  match s with
  | [] => none
  | [c0] =>
    if !isDigit c0 then none
    else if fixed then none
    else some (digitVal c0, [])
  | c0 :: c1 :: rest =>
    if !isDigit c0 then none
    else if !isDigit c1 then
      if fixed then none else some (digitVal c0, c1 :: rest)
    else some (digitVal c0 * 10 + digitVal c1, rest)

/-- Go `skip(value, lit)` for a one-character literal of the layout. -/
def skipLit (value : List Char) (lit : Char) : Option (List Char) :=
  match value with
  | [] => none
  | c :: rest => if c = lit then some rest else none

/-- Chunk `stdLongYear`: four characters, all digits. -/
def parseLongYear (value : List Char) : Option (Nat × List Char) :=
  match value with
  | c0 :: c1 :: c2 :: c3 :: rest =>
    if isDigit c0 && isDigit c1 && isDigit c2 && isDigit c3 then
      some (((digitVal c0 * 10 + digitVal c1) * 10 + digitVal c2) * 10 + digitVal c3, rest)
    else none
  | _ => none

/-- The value of a digit string, most significant digit first. -/
def decimalValue (ds : List Char) : Nat :=
  ds.foldl (fun n c => n * 10 + digitVal c) 0

/-- The fractional second that may follow the seconds field although the layout
has none: a period or comma and at least one digit. Go `parseNanoseconds` keeps
the first nine digits and scales them to nanoseconds. -/
def parseFraction (value : List Char) : Nat × List Char :=
  match value with
  | c0 :: c1 :: rest =>
    if (c0 = '.' ∨ c0 = ',') ∧ isDigit c1 = true then
      let ds := (c1 :: rest).takeWhile isDigit
      let kept := ds.take 9
      (decimalValue kept * 10 ^ (9 - kept.length), (c1 :: rest).dropWhile isDigit)
    else (0, value)
  | _ => (0, value)

/-- Chunk `stdISO8601ColonTZ`: `Z`, or a sign, two digits, a colon and two
digits. The result is the zone offset in seconds east of UTC. -/
def parseZone (value : List Char) : Option (Int × List Char) :=
  match value with
  | 'Z' :: rest => some (0, rest)
  | sign :: h0 :: h1 :: colon :: m0 :: m1 :: rest =>
    if colon ≠ ':' then none
    else
      match getnum [h0, h1] true with
      | none => none
      | some (hr, _) =>
        match getnum [m0, m1] true with
        | none => none
        | some (mm, _) =>
          if hr > 24 then none
          else if mm > 60 then none
          else
            let zoneOffset : Int := ((hr * 60 + mm) * 60 : Nat)
            if sign = '+' then some (zoneOffset, rest)
            else if sign = '-' then some (-zoneOffset, rest)
            else none
  | _ => none

/-- Chunks `stdLongYear`, `-`, `stdZeroMonth`, `-`, `stdZeroDay`: year, month
(checked to be in `1..12`) and day (any two digits), and the rest of the text. -/
def parseDateChunks (value : List Char) : Option (Nat × Nat × Nat × List Char) :=
  (parseLongYear value).bind fun (year, value) =>
  (skipLit value '-').bind fun value =>
  (getnum value true).bind fun (month, value) =>
  if month = 0 ∨ 12 < month then none else
  (skipLit value '-').bind fun value =>
  (getnum value true).bind fun (day, value) =>
  some (year, month, day, value)

/-- Chunks `stdHour`, `:`, `stdZeroMinute`, `:`, `stdZeroSecond`, each checked
to be in range, and the rest of the text. -/
def parseClockChunks (value : List Char) : Option (Nat × Nat × Nat × List Char) :=
  (getnum value false).bind fun (hour, value) =>
  if 24 ≤ hour then none else
  (skipLit value ':').bind fun value =>
  (getnum value true).bind fun (min, value) =>
  if 60 ≤ min then none else
  (skipLit value ':').bind fun value =>
  (getnum value true).bind fun (sec, value) =>
  if 60 ≤ sec then none else
  some (hour, min, sec, value)

/-- The body of Go `time.parse` for the layout `time.RFC3339`. -/
def parseRFC3339 (value : List Char) : Option Time :=
  (parseDateChunks value).bind fun (year, month, day, value) =>
  (skipLit value 'T').bind fun value =>
  (parseClockChunks value).bind fun (hour, min, sec, value) =>
  let (nsec, value) := parseFraction value
  (parseZone value).bind fun (zoneOffset, value) =>
  -- the layout is exhausted: anything left is extra text
  if value ≠ [] then none else
  -- validate the day of the month
  if day < 1 ∨ day > daysIn month year then none else
  let t := Date year month day hour min sec nsec
  -- `t.addSec(-int64(zoneOffset))`
  some { t with sec := t.sec - zoneOffset }

/-- Go `time.Parse(time.RFC3339, value)`. -/
def timeParse (value : String) : Except GoError Time :=
  match parseRFC3339 value.data with
  | some t => .ok t
  | none => .error (.parseError value)

/-! ## `strconv.ParseInt(s, 10, 64)` -/

/-- Go `strconv.ParseUint(s, 10, 64)` before its range check: the value of a
non-empty string of decimal digits. -/
def parseUintDigits (s : List Char) : Option Nat :=
  if s = [] then none
  else if s.all isDigit then some (decimalValue s)
  else none

/-- Go `strconv.ParseInt(s, 10, 64)`: `none` for a syntax or range error. -/
def ParseInt (s : String) : Option Int :=
  match s.data with
  | [] => none
  | c :: rest =>
    let neg := decide (c = '-')
    let digits := if c = '+' ∨ c = '-' then rest else c :: rest
    match parseUintDigits digits with
    | none => none
    | some un =>
      -- `cutoff = 1 << 63`; a value past `uint64` is a range error as well
      if !neg && decide (un ≥ 9223372036854775808) then none
      else if neg && decide (un > 9223372036854775808) then none
      else some (if neg then -(un : Int) else (un : Int))

/-! ## The query record -/

/-- Go `LQLQuery`. The struct tags name the JSON keys `LQL_ID`,
`START_TIME_RANGE`, `END_TIME_RANGE` and `QUERY_TEXT`; `QueryBlob` is tagged
`json:"-"` and takes no part in decoding. -/
structure LQLQuery where
  ID : String
  StartTimeRange : String
  EndTimeRange : String
  QueryText : String
  QueryBlob : String
deriving DecidableEq, Repr

/-! ## `json.Unmarshal([]byte(blob), &t)` with `t` a zero `LQLQuery`

The text is first checked to be one well-formed JSON value (`checkValid`), then
decoded into the struct. The model does both in one descent. Nested values are
only checked, as the decoder does when it skips them.

The descent is driven by a fuel counter. A call passes `fuel - 1` to the calls
it makes, and between a call and the second call below it at least one
character has been read, so a chain of calls is never longer than twice the
text plus one; `jsonUnmarshal` starts with twice the length plus two. -/

/-- JSON white space. -/
def isSpace (c : Char) : Bool :=
  decide (c = ' ') || decide (c = '\t') || decide (c = '\r') || decide (c = '\n')

/-- The value of a hexadecimal digit. -/
def hexVal (c : Char) : Option Nat :=
  if 48 ≤ c.toNat ∧ c.toNat ≤ 57 then some (c.toNat - 48)
  else if 97 ≤ c.toNat ∧ c.toNat ≤ 102 then some (c.toNat - 87)
  else if 65 ≤ c.toNat ∧ c.toNat ≤ 70 then some (c.toNat - 55)
  else none

/-- Go `getu4` on the four characters that follow a backslash and `u`. -/
def getu4 (h0 h1 h2 h3 : Char) : Option Nat :=
  (hexVal h0).bind fun a =>
  (hexVal h1).bind fun b =>
  (hexVal h2).bind fun c =>
  (hexVal h3).bind fun d =>
  some (((a * 16 + b) * 16 + c) * 16 + d)

/-- The low half of a surrogate pair written as a second `\u` escape at the head
of the text, and the text after it. -/
def lowSurrogate (s : List Char) : Option (Nat × List Char) :=
  match s with
  | b :: u :: h0 :: h1 :: h2 :: h3 :: rest =>
    if b = '\\' ∧ u = 'u' then
      match getu4 h0 h1 h2 h3 with
      | some lo => if 0xDC00 ≤ lo ∧ lo < 0xE000 then some (lo, rest) else none
      | none => none
    else none
  | _ => none

/-- A string literal after its opening quote: the decoded text (Go `unquote`)
and what follows the closing quote; `none` when the literal is malformed.
`fuel` bounds the characters read. -/
def scanString : Nat → List Char → List Char → Option (List Char × List Char)
  | 0, _, _ => none
  | _ + 1, [], _ => none
  | fuel + 1, c :: rest, acc =>
    if c = '"' then some (acc.reverse, rest)
    else if c = '\\' then
      match rest with
      | [] => none
      | e :: rest =>
        if e = '"' ∨ e = '\\' ∨ e = '/' then scanString fuel rest (e :: acc)
        else if e = 'b' then scanString fuel rest (Char.ofNat 8 :: acc)
        else if e = 'f' then scanString fuel rest (Char.ofNat 12 :: acc)
        else if e = 'n' then scanString fuel rest ('\n' :: acc)
        else if e = 'r' then scanString fuel rest ('\r' :: acc)
        else if e = 't' then scanString fuel rest ('\t' :: acc)
        else if e = 'u' then
          match rest with
          | h0 :: h1 :: h2 :: h3 :: rest =>
            match getu4 h0 h1 h2 h3 with
            | none => none
            | some rr =>
              if 0xD800 ≤ rr ∧ rr < 0xE000 then
                -- a surrogate: a valid pair is one character, anything else U+FFFD
                if rr < 0xDC00 then
                  match lowSurrogate rest with
                  | some (lo, rest2) =>
                    scanString fuel rest2
                      (Char.ofNat ((rr - 0xD800) * 1024 + (lo - 0xDC00) + 0x10000) :: acc)
                  | none => scanString fuel rest (Char.ofNat 0xFFFD :: acc)
                else scanString fuel rest (Char.ofNat 0xFFFD :: acc)
              else scanString fuel rest (Char.ofNat rr :: acc)
          | _ => none
        else none
    else if c.toNat < 32 then none
    else scanString fuel rest (c :: acc)

/-- A number literal: `-`? (`0` | `1-9` digits) (`.` digits+)? (`e|E` sign? digits+)?;
returns what follows it. -/
def scanNumber (s : List Char) : Option (List Char) :=
  let s := match s with
    | c :: rest => if c = '-' then rest else s
    | [] => s
  let intPart : Option (List Char) :=
    match s with
    | c :: rest =>
      if c = '0' then some rest
      else if isDigit c then some (rest.dropWhile isDigit)
      else none
    | [] => none
  intPart.bind fun s =>
  let fracPart : Option (List Char) :=
    match s with
    | c :: d :: rest =>
      if c = '.' then (if isDigit d then some (rest.dropWhile isDigit) else none)
      else some s
    | [c] => if c = '.' then none else some s
    | [] => some s
  fracPart.bind fun s =>
  match s with
  | c :: rest =>
    if c = 'e' ∨ c = 'E' then
      let rest := match rest with
        | g :: rest2 => if g = '+' ∨ g = '-' then rest2 else rest
        | [] => rest
      match rest with
      | d :: rest3 => if isDigit d then some (rest3.dropWhile isDigit) else none
      | [] => none
    else some s
  | [] => some s

/-- What the decoder needs to know of a value: its kind, and its text when it is
a string. -/
inductive JKind where
  | null
  | bool
  | number
  | string (text : String)
  | object
  | array
deriving DecidableEq, Repr

/-- Go `maxNestingDepth`. -/
def maxNestingDepth : Nat := 10000

/-- Strip a literal word from the head of the text. -/
def stripWord (word s : List Char) : Option (List Char) :=
  if word.isPrefixOf s then some (s.drop word.length) else none

mutual

/-- One JSON value at the head of the text (white space already skipped): its
kind and the rest of the text. `depth` counts the enclosing objects and arrays. -/
def scanValue : Nat → Nat → List Char → Option (JKind × List Char)
  | 0, _, _ => none
  | _ + 1, _, [] => none
  | fuel + 1, depth, c :: rest =>
    if c = '{' then
      if depth + 1 > maxNestingDepth then none
      else (scanMembers fuel (depth + 1) true (rest.dropWhile isSpace)).map
        fun r => (JKind.object, r.2)
    else if c = '[' then
      if depth + 1 > maxNestingDepth then none
      else (scanElements fuel (depth + 1) true (rest.dropWhile isSpace)).map
        fun r => (JKind.array, r)
    else if c = '"' then
      (scanString (rest.length + 1) rest []).map fun r => (JKind.string (String.mk r.1), r.2)
    else if c = 't' then (stripWord ['r', 'u', 'e'] rest).map fun r => (JKind.bool, r)
    else if c = 'f' then (stripWord ['a', 'l', 's', 'e'] rest).map fun r => (JKind.bool, r)
    else if c = 'n' then (stripWord ['u', 'l', 'l'] rest).map fun r => (JKind.null, r)
    else (scanNumber (c :: rest)).map fun r => (JKind.number, r)

/-- The members of an object after its opening brace (white space skipped), up
to and including the closing brace: the keys with the kinds of their values, in
order. `first` allows the object to close at once. -/
def scanMembers : Nat → Nat → Bool → List Char → Option (List (String × JKind) × List Char)
  | 0, _, _, _ => none
  | _ + 1, _, _, [] => none
  | fuel + 1, depth, first, c :: rest =>
    if c = '}' ∧ first = true then some ([], rest)
    else if c = '"' then
      match scanString (rest.length + 1) rest [] with
      | none => none
      | some (key, rest) =>
        match rest.dropWhile isSpace with
        | [] => none
        | colon :: rest =>
          if colon ≠ ':' then none
          else
            match scanValue fuel depth (rest.dropWhile isSpace) with
            | none => none
            | some (kind, rest) =>
              match rest.dropWhile isSpace with
              | [] => none
              | sep :: rest =>
                if sep = '}' then some ([(String.mk key, kind)], rest)
                else if sep = ',' then
                  (scanMembers fuel depth false (rest.dropWhile isSpace)).map
                    fun r => ((String.mk key, kind) :: r.1, r.2)
                else none
    else none

/-- The elements of an array after its opening bracket (white space skipped), up
to and including the closing bracket. -/
def scanElements : Nat → Nat → Bool → List Char → Option (List Char)
  | 0, _, _, _ => none
  | _ + 1, _, _, [] => none
  | fuel + 1, depth, first, c :: rest =>
    if c = ']' ∧ first = true then some rest
    else
      match scanValue fuel depth (c :: rest) with
      | none => none
      | some (_, rest) =>
        match rest.dropWhile isSpace with
        | [] => none
        | sep :: rest =>
          if sep = ']' then some rest
          else if sep = ',' then scanElements fuel depth false (rest.dropWhile isSpace)
          else none

end

/-- The fold of one character of a key for the case-insensitive field match:
ASCII letters to upper case, U+017F to `S`, U+212A to `K`. -/
def foldChar (c : Char) : Char :=
  if 97 ≤ c.toNat ∧ c.toNat ≤ 122 then Char.ofNat (c.toNat - 32)
  else if c.toNat = 0x17F then 'S'
  else if c.toNat = 0x212A then 'K'
  else c

/-- A key selects the field tagged `name` (written in upper case) when it equals
the tag exactly or under case folding. -/
def keyMatches (key name : String) : Bool :=
  decide (key.data.map foldChar = name.data)

/-- Store one member of the top-level object into `t`. A value that is neither
a string nor `null` for a known key is a type error: it is recorded (`false`)
and decoding goes on. Unknown keys are skipped. -/
def storeMember (acc : LQLQuery × Bool) (m : String × JKind) : LQLQuery × Bool :=
  let t := acc.1
  let known := keyMatches m.1 "LQL_ID" || keyMatches m.1 "START_TIME_RANGE"
    || keyMatches m.1 "END_TIME_RANGE" || keyMatches m.1 "QUERY_TEXT"
  if !known then acc
  else
    match m.2 with
    | .string text =>
      if keyMatches m.1 "LQL_ID" then ({ t with ID := text }, acc.2)
      else if keyMatches m.1 "START_TIME_RANGE" then ({ t with StartTimeRange := text }, acc.2)
      else if keyMatches m.1 "END_TIME_RANGE" then ({ t with EndTimeRange := text }, acc.2)
      else ({ t with QueryText := text }, acc.2)
    | .null => acc
    | _ => (t, false)

/-- Go `json.Unmarshal([]byte(data), &t)` for a zero `t : LQLQuery`: `some t`
when the returned error is `nil`. -/
def jsonUnmarshal (data : String) : Option LQLQuery :=
  let zero : LQLQuery := { ID := "", StartTimeRange := "", EndTimeRange := "",
                           QueryText := "", QueryBlob := "" }
  let s := data.data.dropWhile isSpace
  let fuel := 2 * s.length + 2
  match s with
  | [] => none
  | c :: rest =>
    if c = '{' then
      match scanMembers fuel 1 true (rest.dropWhile isSpace) with
      | none => none
      | some (members, rest) =>
        if rest.dropWhile isSpace ≠ [] then none
        else
          let r := members.foldl storeMember (zero, true)
          if r.2 then some r.1 else none
    else
      match scanValue fuel 0 s with
      | none => none
      | some (kind, rest) =>
        if rest.dropWhile isSpace ≠ [] then none
        -- `null` leaves the struct alone; any other value is a type error
        else if kind = JKind.null then some zero
        else none

/-! ## `regexp.MatchString(reLQL, blob)` -/

/-- Go `reLQL`. -/
def reLQL : String := "(?ms)^(\\w+)\\([^)]+\\)\\s*\x7b"

/-- Go `LQLQueryTranslateError`. -/
def LQLQueryTranslateError : String := "unable to translate query blob"

/-- The class `\w`: `[0-9A-Za-z_]`. -/
def isWordChar (c : Char) : Bool :=
  isDigit c || (decide (65 ≤ c.toNat) && decide (c.toNat ≤ 90))
    || (decide (97 ≤ c.toNat) && decide (c.toNat ≤ 122)) || decide (c = '_')

/-- The class `\s`: `[\t\n\f\r ]`. -/
def isReSpace (c : Char) : Bool :=
  decide (c = '\t') || decide (c = '\n') || decide (c = Char.ofNat 12)
    || decide (c = '\r') || decide (c = ' ')

/-- The pattern `(\w+)\([^)]+\)\s*{` matched at the head of the text. Each
repetition is followed by a character outside its class, so it can only stop at
the end of its longest run. -/
def matchHere (s : List Char) : Bool :=
  match s.takeWhile isWordChar, s.dropWhile isWordChar with
  | _ :: _, c :: rest =>
    if c = '(' then
      match rest.takeWhile (fun x => decide (x ≠ ')')), rest.dropWhile (fun x => decide (x ≠ ')')) with
      | _ :: _, _ :: rest =>
        match rest.dropWhile isReSpace with
        | b :: _ => decide (b = '{')
        | [] => false
      | _, _ => false
    else false
  | _, _ => false

/-- Search for a match of `reLQL`: with the flag `m`, `^` holds at the start of
the text and after every line feed. -/
def searchLines : Bool → List Char → Bool
  | _, [] => false
  | lineStart, c :: rest =>
    (lineStart && matchHere (c :: rest)) || searchLines (decide (c = '\n')) rest

/-- Go `regexp.MatchString(reLQL, s)`, its first result. -/
def MatchString (s : String) : Bool := searchLines true s.data

/-! ## The methods of `LQLQuery` -/

/-- Go `time.Millisecond`, in nanoseconds. -/
def Millisecond : Int := 1000000

/-- Go `LQLQuery.TranslateTime`. -/
def LQLQuery.TranslateTime (_q : LQLQuery) (w : World) (inTime : String) :
    String × Option GoError :=
  -- empty
  if inTime = "" then ("", none)
  else
    -- parse time as relative
    match w.ParseRelative inTime with
    | some t => (formatRFC3339UTC t, none)
    | none =>
      -- parse time as RFC3339
      match timeParse inTime with
      | .ok t => (formatRFC3339UTC t, none)
      | .error _ =>
        -- parse time as millis
        match ParseInt inTime with
        | some i => (formatRFC3339UTC (Unix 0 (toInt64 (i * Millisecond))), none)
        | none => ("", some (.errorsNew ("unable to parse time (" ++ inTime ++ ")")))

/-- Go `LQLQuery.ValidateRange`. -/
def LQLQuery.ValidateRange (q : LQLQuery) (w : World) (allowEmptyTimes : Bool) :
    Option GoError :=
  -- validate start
  let start : Except GoError Time :=
    if q.StartTimeRange ≠ "" then timeParse q.StartTimeRange
    else if allowEmptyTimes then .ok (Unix 0 0)
    else .error (.errorsNew "start time must not be empty")
  match start with
  | .error err => some err
  | .ok start =>
    -- validate end
    let stop : Except GoError Time :=
      if q.EndTimeRange ≠ "" then timeParse q.EndTimeRange
      else if allowEmptyTimes then .ok w.Now
      else .error (.errorsNew "end time must not be empty")
    match stop with
    | .error err => some err
    | .ok stop =>
      -- validate range
      if start.After stop then
        some (.errorsNew "date range should have a start time before the end time")
      else none

/-- Go `LQLQuery.TranslateQuery`. -/
def LQLQuery.TranslateQuery (q : LQLQuery) : LQLQuery × Option GoError :=
  -- empty
  if q.QueryText ≠ "" then (q, none)
  else
    -- json
    match jsonUnmarshal q.QueryBlob with
    | some t =>
      let q := if q.StartTimeRange = "" then { q with StartTimeRange := t.StartTimeRange } else q
      let q := if q.EndTimeRange = "" then { q with EndTimeRange := t.EndTimeRange } else q
      ({ q with QueryText := t.QueryText }, none)
    | none =>
      -- lql
      if MatchString q.QueryBlob then ({ q with QueryText := q.QueryBlob }, none)
      else (q, some (.errorsNew LQLQueryTranslateError))

/-- Go `LQLQuery.Translate`. -/
def LQLQuery.Translate (q : LQLQuery) (w : World) : LQLQuery × Option GoError :=
  -- query
  match q.TranslateQuery with
  | (q, some err) => (q, some err)
  | (q, none) =>
    -- start
    match q.TranslateTime w q.StartTimeRange with
    | (_, some err) => (q, some err)
    | (start, none) =>
      let q := { q with StartTimeRange := start }
      -- end
      match q.TranslateTime w q.EndTimeRange with
      | (_, some _) => (q, none)
      | (stop, none) => ({ q with EndTimeRange := stop }, none)

/-- Go `LQLQuery.Validate`. -/
def LQLQuery.Validate (q : LQLQuery) (w : World) (allowEmptyTimes : Bool) :
    LQLQuery × Option GoError :=
  -- translate
  match q.Translate w with
  | (q, some err) => (q, some err)
  | (q, none) =>
    -- validate range
    match q.ValidateRange w allowEmptyTimes with
    | some err => (q, some err)
    | none =>
      -- validate query
      if q.QueryText = "" then (q, some (.errorsNew "query should not be empty"))
      else (q, none)

/-! ## Worlds and queries used in the examples -/

/-- A world whose clock reads `now` and whose relative-time parser rejects the
inputs it is asked about. -/
def absoluteWorld (now : Time) : World := { Now := now, ParseRelative := fun _ => none }

/-- The clock reading 2021-06-01T00:00:00Z. -/
def someNow : Time := { sec := 1622505600, nsec := 0 }

/-- A query holding only a blob, as `CreateQuery` builds it. -/
def blobQuery (blob : String) : LQLQuery :=
  { ID := "", StartTimeRange := "", EndTimeRange := "", QueryText := "", QueryBlob := blob }

/-- A query holding a text and two time expressions. -/
def textQuery (text start stop : String) : LQLQuery :=
  { ID := "", StartTimeRange := start, EndTimeRange := stop, QueryText := text, QueryBlob := "" }

/-- The error of `ValidateRange` for a start after the end. -/
def rangeOrderError : GoError :=
  .errorsNew "date range should have a start time before the end time"

/-- The error of `ValidateRange` for an empty start that the policy forbids. -/
def emptyStartError : GoError := .errorsNew "start time must not be empty"

/-- The error of `TranslateTime` for an expression of none of its grammars. -/
def timeParseError (inTime : String) : GoError :=
  .errorsNew ("unable to parse time (" ++ inTime ++ ")")

/-- The blob of the scenario "literal query text": an identifier directly
followed by a brace. -/
def braceBlob : String := "q\x7b source\x7bCloudTrailRawEvents\x7d return\x7bINSERT_ID\x7d \x7d"

/-- The same text with a parameter list between the identifier and the brace. -/
def signatureBlob : String :=
  "q(CloudTrailRawEvents e) \x7b source\x7bCloudTrailRawEvents\x7d return\x7bINSERT_ID\x7d \x7d"

/-- A blob that is a JSON query record. -/
def recordBlob : String :=
  "\x7b\"START_TIME_RANGE\":\"2020-01-01T00:00:00Z\",\"END_TIME_RANGE\":\"2020-01-02T00:00:00Z\",\"QUERY_TEXT\":\"q(x) \x7b source\x7bA\x7d return\x7bB\x7d \x7d\"\x7d"

/-! ## Calendar notions used in the proofs -/

/-- Month and day of month from the day of the year, as the tail of `absDate`. -/
def monthDay (leap : Bool) (yday : Nat) : Nat × Nat :=
  if leap && decide (yday = 31 + 29 - 1) then (2, 29)
  else
    let day := if leap && decide (yday > 31 + 29 - 1) then yday - 1 else yday
    let month := day / 31
    let stop := daysBefore (month + 1)
    if day ≥ stop then (month + 2, day - stop + 1)
    else (month + 1, day - daysBefore month + 1)

/-- Days from the absolute epoch to the first day of the absolute year `k`, as
`Date` adds them up. -/
def yearDays (k : Nat) : Nat :=
  146097 * (k / 400) + 36524 * ((k - 400 * (k / 400)) / 100) +
    1461 * ((k - 400 * (k / 400) - 100 * ((k - 400 * (k / 400)) / 100)) / 4) +
    365 * (k - 400 * (k / 400) - 100 * ((k - 400 * (k / 400)) / 100) -
      4 * ((k - 400 * (k / 400) - 100 * ((k - 400 * (k / 400)) / 100)) / 4))

/-- Day of the year, from zero, of a calendar day. -/
def yearDay (year month day : Nat) : Nat :=
  daysBefore (month - 1) + (if isLeap year && decide (month ≥ 3) then 1 else 0) + (day - 1)

/-- Length of a month, as a calendar has it. -/
def monthLength (leap : Bool) (month : Nat) : Nat :=
  match month with
  | 1 => 31
  | 2 => if leap then 29 else 28
  | 3 => 31
  | 4 => 30
  | 5 => 31
  | 6 => 30
  | 7 => 31
  | 8 => 31
  | 9 => 30
  | 10 => 31
  | 11 => 30
  | 12 => 31
  | _ => 0

/-- The day of the year of a calendar day leads `monthDay` back to it. -/
def monthDayInverts (leap : Bool) (M D : Nat) : Bool :=
  decide (1 ≤ M → 1 ≤ D → D ≤ monthLength leap M →
      monthDay leap (daysBefore (M - 1) + (if leap && decide (M ≥ 3) then 1 else 0) + (D - 1))
          = (M, D) ∧
      daysBefore (M - 1) + (if leap && decide (M ≥ 3) then 1 else 0) + (D - 1)
          ≤ (if leap then 365 else 364))

/-- The character of a decimal digit. -/
def digitChar (d : Nat) : Char := Char.ofNat (48 + d)

/-- The characters of `YYYY-MM-DDTHH:MM:SSZ` for six fields. -/
def timestampChars (Y M D h mi s : Nat) : List Char :=
  [digitChar (Y / 1000), digitChar (Y / 100 % 10), digitChar (Y / 10 % 10), digitChar (Y % 10),
   '-', digitChar (M / 10), digitChar (M % 10), '-', digitChar (D / 10), digitChar (D % 10),
   'T', digitChar (h / 10), digitChar (h % 10), ':', digitChar (mi / 10), digitChar (mi % 10),
   ':', digitChar (s / 10), digitChar (s % 10), 'Z']

/-- A canonical RFC 3339 UTC timestamp: the text `YYYY-MM-DDTHH:MM:SSZ` of a
valid date and time of day. -/
def IsCanonicalTimestamp (x : String) : Prop :=
  ∃ Y M D h mi s : Nat, Y ≤ 9999 ∧ 1 ≤ M ∧ M ≤ 12 ∧ 1 ≤ D ∧ D ≤ monthLength (isLeap Y) M ∧
    h < 24 ∧ mi < 60 ∧ s < 60 ∧ x = String.mk (timestampChars Y M D h mi s)

/-- The shape `YYYY-MM-DDTHH:MM:SSZ`: twenty characters, digits between the
separators, no fraction, `Z` at the end. -/
def isCanonicalUTC (x : String) : Bool :=
  match x.data with
  | [y0, y1, y2, y3, a, m0, m1, b, d0, d1, t, h0, h1, c, i0, i1, e, s0, s1, z] =>
    isDigit y0 && isDigit y1 && isDigit y2 && isDigit y3 && decide (a = '-') &&
    isDigit m0 && isDigit m1 && decide (b = '-') && isDigit d0 && isDigit d1 &&
    decide (t = 'T') && isDigit h0 && isDigit h1 && decide (c = ':') &&
    isDigit i0 && isDigit i1 && decide (e = ':') && isDigit s0 && isDigit s1 &&
    decide (z = 'Z')
  | _ => false

/-- The year of a date triple. -/
def yearOf (date : Int × Nat × Nat) : Int := date.1

/-- The year, in UTC, of an instant, as `Format` prints it. -/
def utcYear (t : Time) : Int := yearOf (absDate (toUint64 (t.sec + unixToAbsolute)))

/-- The instant exactly `i` milliseconds after the Unix epoch. -/
def instantOfMillis (i : Int) : Time :=
  { sec := i / 1000, nsec := (i % 1000 * 1000000).toNat }

end LQL

/-!
# Profile migration (`cli/cmd/migration.go`)

A shallow embedding of `cliState.MigrateProfile`. The functions it calls live in
files that are not part of the sources studied here (`VerifySettings`,
`SendHoneyvent`, `GetOrganizationInfo`, `lwconfig.StoreProfileAt`) or in
libraries (`regexp`, `strings`, `viper`); what they answer in one run is read
from a `Collaborators` record, and the calls that have an effect are counted in
the result.
-/

namespace CLI

/-- The `error` values of the command-line package. -/
inductive CliError where
  /-- An error handed back by a collaborator; `Error()` returns `text`. -/
  | external (text : String)
  /-- Built by `errors.Wrap(cause, message)`. -/
  | wrap (cause : CliError) (message : String)
deriving DecidableEq, Repr

/-- Go `err.Error()` on a non-nil error. -/
def CliError.Error : CliError → String
  | .external text => text
  | .wrap cause message => message ++ ": " ++ cause.Error

/-- The fields of the event that `MigrateProfile` writes. -/
structure Honeyvent where
  Feature : String
  Error : String
deriving DecidableEq, Repr

/-- The fields of `cliState` that `MigrateProfile` reads or writes. -/
structure cliState where
  Event : Honeyvent
  Account : String
  KeyID : String
  Secret : String
deriving DecidableEq, Repr

/-- The fields of the organization info that `MigrateProfile` reads. -/
structure OrganizationInfo where
  OrgAccount : Bool
  OrgAccountURL : String
deriving DecidableEq, Repr

/-- Go `lwconfig.Profile`, with the fields `MigrateProfile` sets. -/
structure Profile where
  Account : String
  ApiKey : String
  ApiSecret : String
  Subaccount : String
  Version : Nat
deriving DecidableEq, Repr

/-- What the collaborators of `MigrateProfile` answer in one run. -/
structure Collaborators where
  /-- The constant `featMigrateConfigV2`. -/
  featMigrateConfigV2 : String
  /-- The error of `c.VerifySettings()`, `none` for `nil`. -/
  VerifySettings : Option CliError
  /-- The two results of `c.LwApi.Account.GetOrganizationInfo()`. -/
  GetOrganizationInfo : OrganizationInfo × Option CliError
  /-- The error of `regexp.Compile` on the domain pattern. -/
  Compile : Option CliError
  /-- The value of `rx.Split(s, -1)`. -/
  Split : String → List String
  /-- Go `strings.ToLower`. -/
  ToLower : String → String
  /-- The value of `viper.ConfigFileUsed()`. -/
  ConfigFileUsed : String
  /-- The value of `cli.Profile`. -/
  ProfileName : String
  /-- The error of `lwconfig.StoreProfileAt(file, name, profile)`. -/
  StoreProfileAt : String → String → Profile → Option CliError

/-- How a call ends: it returns its error result, or it panics. -/
inductive Outcome where
  | returned (err : Option CliError)
  | panicked
deriving DecidableEq, Repr

/-- The body of `MigrateProfile` up to the point where it ends: the state, the
profiles handed to `StoreProfileAt`, how the body ended, and the value of the
named result `err` at that point, which the deferred function reads. -/
structure Body where
  state : cliState
  stored : List (String × String × Profile)
  outcome : Outcome
  err : Option CliError

/-- A run of `MigrateProfile`: the body, and the number of calls of
`SendHoneyvent`. -/
structure Run where
  state : cliState
  stored : List (String × String × Profile)
  honeyvents : Nat
  outcome : Outcome

/-- The profile that `MigrateProfile` builds once the organization info is
known, or the error of the block that rewrites the account name. -/
def migratedProfile (env : Collaborators) (c : cliState) (account : OrganizationInfo) :
    Except CliError Profile :=
  let migrated : Profile :=
    { Account := c.Account, ApiKey := c.KeyID, ApiSecret := c.Secret, Subaccount := "",
      Version := 2 }
  if account.OrgAccount then
    match env.Compile with
    | some err => .error (.wrap err "unable to substract account name from full domain")
    | none =>
      let accountSplit := env.Split (env.ToLower account.OrgAccountURL)
      let migrated :=
        match accountSplit with
        | [] => migrated
        | first :: _ => { migrated with Account := first }
      let migrated :=
        if migrated.Account ≠ env.ToLower c.Account then
          { migrated with Subaccount := c.Account }
        else migrated
      .ok migrated
  else .ok migrated

/-- The statements of `MigrateProfile` between the `defer` and the end. -/
def migrateBody (env : Collaborators) (c : cliState) : Body :=
  -- err = c.VerifySettings()
  let err := env.VerifySettings
  if err ≠ none then { state := c, stored := [], outcome := .returned err, err := err }
  else
    match env.GetOrganizationInfo with
    | (_, some _) =>
      -- c.Event.Error = err.Error(): a method call on the interface value `err`
      match err with
      | none => { state := c, stored := [], outcome := .panicked, err := err }
      | some e =>
        { state := { c with Event := { c.Event with Error := e.Error } }, stored := [],
          outcome := .returned err, err := err }
    | (account, none) =>
      match migratedProfile env c account with
      | .error wrapped =>
        { state := c, stored := [], outcome := .returned (some wrapped), err := some wrapped }
      | .ok migrated =>
        match env.StoreProfileAt env.ConfigFileUsed env.ProfileName migrated with
        | some e =>
          { state := c, stored := [(env.ConfigFileUsed, env.ProfileName, migrated)],
            outcome := .returned (some (.wrap e "unable to configure the command-line")),
            err := some (.wrap e "unable to configure the command-line") }
        | none =>
          { state := c, stored := [(env.ConfigFileUsed, env.ProfileName, migrated)],
            outcome := .returned none, err := none }

/-- Go `cliState.MigrateProfile`: the feature is set, the body runs, and the
deferred function sends the event when the named result `err` is `nil`; a panic
of the body goes on after the deferred function has run. -/
def MigrateProfile (env : Collaborators) (c : cliState) : Run :=
  let c := { c with Event := { c.Event with Feature := env.featMigrateConfigV2 } }
  let body := migrateBody env c
  { state := body.state, stored := body.stored,
    honeyvents := if body.err = none then 1 else 0,
    outcome := body.outcome }

/-- Collaborators of a run in which the settings verify and the organization
info cannot be fetched. -/
def orgInfoFails : Collaborators :=
  { featMigrateConfigV2 := "migrate_config_v2",
    VerifySettings := none,
    GetOrganizationInfo := ({ OrgAccount := false, OrgAccountURL := "" },
      some (.external "unable to get organization info")),
    Compile := none,
    Split := fun s => [s],
    ToLower := fun s => s,
    ConfigFileUsed := "lacework.toml",
    ProfileName := "default",
    StoreProfileAt := fun _ _ _ => none }

/-- A command-line state with credentials and an empty event. -/
def someState : cliState :=
  { Event := { Feature := "", Error := "" }, Account := "example",
    KeyID := "EXAMPLE_0123456789", Secret := "_0123456789" }

end CLI

namespace LQL

/-! ## The calendar arithmetic is correct -/

theorem div_of_rem (k q r : Nat) (hk : 0 < k) (hr : r < k) : (k * q + r) / k = q := by
  rw [Nat.mul_add_div hk, Nat.div_eq_of_lt hr, Nat.add_zero]

/-- The 400-year cycle count is read back from a day count. -/
theorem stage400 (n n2 n3 r3 yd : Nat) (h2 : n2 ≤ 3) (h3 : n3 ≤ 24) (h4 : r3 ≤ 3)
    (hyd : yd ≤ 364 ∨ (yd = 365 ∧ r3 = 3 ∧ (n3 ≠ 24 ∨ n2 = 3))) :
    (146097 * n + 36524 * n2 + 1461 * n3 + 365 * r3 + yd) / 146097 = n := by
  have hr : 36524 * n2 + 1461 * n3 + 365 * r3 + yd < 146097 := by omega
  have := div_of_rem 146097 n _ (by norm_num) hr
  rw [← this]
  congr 1
  omega

/-- The 100-year cycle count is read back, with the cut at three on the last day
of a 400-year cycle. -/
theorem stage100 (n2 n3 r3 yd : Nat) (h2 : n2 ≤ 3) (h3 : n3 ≤ 24) (h4 : r3 ≤ 3)
    (hyd : yd ≤ 364 ∨ (yd = 365 ∧ r3 = 3 ∧ (n3 ≠ 24 ∨ n2 = 3))) :
    (36524 * n2 + 1461 * n3 + 365 * r3 + yd) / 36524
      - (36524 * n2 + 1461 * n3 + 365 * r3 + yd) / 36524 / 4 = n2 := by
  by_cases hc : 1461 * n3 + 365 * r3 + yd < 36524
  · have := div_of_rem 36524 n2 _ (by norm_num) hc
    have e : 36524 * n2 + 1461 * n3 + 365 * r3 + yd = 36524 * n2 + (1461 * n3 + 365 * r3 + yd) := by
      omega
    rw [e, this]
    omega
  · have h5 : n3 = 24 ∧ r3 = 3 ∧ yd = 365 ∧ n2 = 3 := by omega
    obtain ⟨rfl, rfl, rfl, rfl⟩ := h5
    decide

/-- The 4-year cycle count is read back. -/
theorem stage4 (n3 r3 yd : Nat) (h4 : r3 ≤ 3)
    (hyd : yd ≤ 364 ∨ (yd = 365 ∧ r3 = 3)) :
    (1461 * n3 + 365 * r3 + yd) / 1461 = n3 := by
  have hr : 365 * r3 + yd < 1461 := by omega
  have := div_of_rem 1461 n3 _ (by norm_num) hr
  rw [← this]
  congr 1
  omega

/-- The year within a 4-year cycle is read back, with the cut at three on the
last day of a leap year. -/
theorem stage1 (r3 yd : Nat) (h4 : r3 ≤ 3)
    (hyd : yd ≤ 364 ∨ (yd = 365 ∧ r3 = 3)) :
    (365 * r3 + yd) / 365 - (365 * r3 + yd) / 365 / 4 = r3 := by
  by_cases hc : yd < 365
  · have := div_of_rem 365 r3 _ (by norm_num) hc
    rw [this]
    omega
  · have h5 : r3 = 3 ∧ yd = 365 := by omega
    obtain ⟨rfl, rfl⟩ := h5
    decide

/-- A value within `int64` is unchanged by the conversion. -/
theorem toInt64_id (x : Int) (h1 : -9223372036854775808 ≤ x) (h2 : x < 9223372036854775808) :
    toInt64 x = x := by
  unfold toInt64
  omega

/-- A value within `uint64` is unchanged by the conversion. -/
theorem toUint64_id (x : Int) (h1 : 0 ≤ x) (h2 : x < 18446744073709551616) :
    toUint64 x = x.toNat := by
  unfold toUint64
  congr 1
  omega

/-- The year of an absolute year index: no conversion wraps. -/
theorem yearOfIndex (k : Nat) (hk : k ≤ 1000000000000000) :
    toInt64 (toInt64 (k : Int) + absoluteZeroYear) = (k : Int) - 292277022399 := by
  unfold absoluteZeroYear
  rw [toInt64_id (k : Int) (by omega) (by omega)]
  rw [toInt64_id _ (by omega) (by omega)]
  omega

/-- On a day count split into its cycles, `absDate` returns the year of the
cycles and the month and day of the day of the year. -/
theorem absDate_decomp (n n2 n3 r3 yd secs : Nat) (hn : n ≤ 1000000000000)
    (h2 : n2 ≤ 3) (h3 : n3 ≤ 24) (h4 : r3 ≤ 3)
    (hyd : yd ≤ 364 ∨ (yd = 365 ∧ r3 = 3 ∧ (n3 ≠ 24 ∨ n2 = 3)))
    (hsecs : secs < 86400) :
    absDate ((146097 * n + 36524 * n2 + 1461 * n3 + 365 * r3 + yd) * 86400 + secs) =
      (((400 * n + 100 * n2 + 4 * n3 + r3 : Nat) : Int) - 292277022399,
        (monthDay (isLeap (((400 * n + 100 * n2 + 4 * n3 + r3 : Nat) : Int) - 292277022399)) yd).1,
        (monthDay (isLeap (((400 * n + 100 * n2 + 4 * n3 + r3 : Nat) : Int) - 292277022399)) yd).2) := by
  have e0 : ((146097 * n + 36524 * n2 + 1461 * n3 + 365 * r3 + yd) * 86400 + secs) / 86400
      = 146097 * n + 36524 * n2 + 1461 * n3 + 365 * r3 + yd := by omega
  have e1 := stage400 n n2 n3 r3 yd h2 h3 h4 hyd
  have e1' : 146097 * n + 36524 * n2 + 1461 * n3 + 365 * r3 + yd - 146097 * n
      = 36524 * n2 + 1461 * n3 + 365 * r3 + yd := by omega
  have e2 := stage100 n2 n3 r3 yd h2 h3 h4 hyd
  have e2' : 36524 * n2 + 1461 * n3 + 365 * r3 + yd - 36524 * n2
      = 1461 * n3 + 365 * r3 + yd := by omega
  have hyd' : yd ≤ 364 ∨ (yd = 365 ∧ r3 = 3) := by omega
  have e3 := stage4 n3 r3 yd h4 hyd'
  have e3' : 1461 * n3 + 365 * r3 + yd - 1461 * n3 = 365 * r3 + yd := by omega
  have e4 := stage1 r3 yd h4 hyd'
  have e4' : 365 * r3 + yd - 365 * r3 = yd := by omega
  have ey := yearOfIndex (400 * n + 100 * n2 + 4 * n3 + r3) (by omega)
  unfold absDate monthDay
  simp only [secondsPerDay, daysPer400Years, daysPer100Years, daysPer4Years, Nat.reduceMul,
    Nat.reduceAdd, e0, e1, e1', e2, e2', e3, e3', e4, e4', ey]
  split_ifs <;> rfl

/-- The leap-year rule as a proposition. -/
theorem isLeap_iff (y : Int) :
    isLeap y = true ↔ y % 4 = 0 ∧ (y % 100 ≠ 0 ∨ y % 400 = 0) := by
  simp [isLeap]

/-- A year is leap exactly when it is the last of its 4-year cycle and that
cycle is not the last of a century, unless the century is the last of its
400 years. -/
theorem isLeap_index (n n2 n3 r3 : Nat) (h2 : n2 ≤ 3) (h3 : n3 ≤ 24) (h4 : r3 ≤ 3) :
    isLeap (((400 * n + 100 * n2 + 4 * n3 + r3 : Nat) : Int) - 292277022399) = true ↔
      (r3 = 3 ∧ (n3 ≠ 24 ∨ n2 = 3)) := by
  rw [isLeap_iff]
  omega

/-- Go `norm` leaves a value already in range alone. -/
theorem norm_id (hi lo base : Int) (h1 : 0 ≤ lo) (h2 : lo < base) :
    norm hi lo base = (hi, lo) := by
  unfold norm
  simp only [not_lt.mpr h1, if_false, ge_iff_le, not_le.mpr h2]

/-- A coarse bound on the days before an absolute year. -/
theorem yearDays_le (k : Nat) : yearDays k ≤ 366 * k := by
  unfold yearDays
  omega

/-- Addition commutes with wrapping the left summand. -/
theorem toInt64_add_left (a b : Int) : toInt64 (toInt64 a + b) = toInt64 (a + b) := by
  unfold toInt64
  omega

/-- The conversions in the tail of `Date` do not change the seconds of a date of
the years 0 to 9999. -/
theorem wrapChain (X D h mi s : Nat) (hX : X ≤ 200000000000000) (hD1 : 1 ≤ D) (hD2 : D ≤ 31)
    (hh : h < 24) (hmi : mi < 60) (hs : s < 60) :
    toInt64 (toInt64 ((toUint64 (((toUint64 ((X : Int) + ((D : Int) - 1)) : Nat) : Int)
        * ((86400 : Nat) : Int) + ((h : Int) * 3600 + (mi : Int) * 60 + (s : Int))) : Nat) : Int)
        + -unixToAbsolute)
      = (((X + (D - 1)) * 86400 + (h * 3600 + mi * 60 + s) : Nat) : Int) - 9223372028715321600 := by
  have e1 : toUint64 ((X : Int) + ((D : Int) - 1)) = X + (D - 1) := by
    rw [toUint64_id _ (by omega) (by omega)]
    omega
  rw [e1]
  have e2 : toUint64 (((X + (D - 1) : Nat) : Int) * ((86400 : Nat) : Int)
      + ((h : Int) * 3600 + (mi : Int) * 60 + (s : Int)))
      = (X + (D - 1)) * 86400 + (h * 3600 + mi * 60 + s) := by
    rw [toUint64_id _ (by omega) (by omega)]
    omega
  rw [e2, toInt64_add_left]
  unfold unixToAbsolute
  rw [toInt64_id _ (by omega) (by omega)]
  omega

/-- No entry of `daysBefore` exceeds a year. -/
theorem daysBefore_le (m : Nat) : daysBefore m ≤ 365 := by
  unfold daysBefore
  split <;> omega

set_option maxRecDepth 20000 in
/-- The instant `Date` computes for calendar fields in range. -/
theorem Date_eq (Y M D h mi s ns : Nat) (hY : Y ≤ 9999) (hM1 : 1 ≤ M) (hM2 : M ≤ 12)
    (hD1 : 1 ≤ D) (hD2 : D ≤ 31) (hh : h < 24) (hmi : mi < 60) (hs : s < 60)
    (hns : ns < 1000000000) :
    Date Y M D h mi s ns =
      { sec := (((yearDays (Y + 292277022399) + yearDay Y M D) * 86400
                  + (h * 3600 + mi * 60 + s) : Nat) : Int)
                 - 9223372028715321600,
        nsec := ns } := by
  have hn1 : norm (Y : Int) ((M : Int) - 1) 12 = ((Y : Int), (M : Int) - 1) :=
    norm_id _ _ _ (by omega) (by omega)
  have hn2 : norm (s : Int) (ns : Int) 1000000000 = ((s : Int), (ns : Int)) :=
    norm_id _ _ _ (by omega) (by omega)
  have hn3 : norm (mi : Int) (s : Int) 60 = ((mi : Int), (s : Int)) :=
    norm_id _ _ _ (by omega) (by omega)
  have hn4 : norm (h : Int) (mi : Int) 60 = ((h : Int), (mi : Int)) :=
    norm_id _ _ _ (by omega) (by omega)
  have hn5 : norm (D : Int) (h : Int) 24 = ((D : Int), (h : Int)) :=
    norm_id _ _ _ (by omega) (by omega)
  have hy : toUint64 ((Y : Int) - absoluteZeroYear) = Y + 292277022399 := by
    unfold absoluteZeroYear
    rw [toUint64_id _ (by omega) (by omega)]
    omega
  have hm : ((M : Int) - 1 + 1 - 1).toNat = M - 1 := by omega
  have hge : ((M : Int) - 1 + 1 ≥ 3) ↔ M ≥ 3 := by omega
  unfold Date
  simp only [hn1, hn2, hn3, hn4, hn5, hy, hm, hge, secondsPerDay, daysPer400Years,
    daysPer100Years, daysPer4Years, Nat.reduceMul, Nat.reduceAdd, Int.toNat_ofNat]
  have hdb := daysBefore_le (M - 1)
  generalize hk : Y + 292277022399 = k
  have hkb : k ≤ 292277032398 := by omega
  have hX : yearDays k = 146097 * (k / 400) + 36524 * ((k - 400 * (k / 400)) / 100) +
    1461 * ((k - 400 * (k / 400) - 100 * ((k - 400 * (k / 400)) / 100)) / 4) +
    365 * (k - 400 * (k / 400) - 100 * ((k - 400 * (k / 400)) / 100) -
      4 * ((k - 400 * (k / 400) - 100 * ((k - 400 * (k / 400)) / 100)) / 4)) := rfl
  rw [← hX]
  have hXb := yearDays_le k
  unfold yearDay
  generalize yearDays k = X at hXb ⊢
  generalize daysBefore (M - 1) = db at hdb ⊢
  refine congrArg (fun x => Time.mk x ns) ?_
  have hcast : ∀ a b : Nat, a = b →
      (a : Int) - 9223372028715321600 = (b : Int) - 9223372028715321600 := by
    intro a b hab; rw [hab]
  by_cases hl : (isLeap (Y : Int) && decide (M ≥ 3)) = true
  · simp only [hl, if_true]
    rw [wrapChain _ D h mi s (by omega) hD1 hD2 hh hmi hs]
    apply hcast
    omega
  · simp only [hl, Bool.false_eq_true, if_false]
    rw [wrapChain _ D h mi s (by omega) hD1 hD2 hh hmi hs]
    apply hcast
    omega

/-- The days before an absolute year, split into cycles. -/
theorem yearDays_decomp (k : Nat) :
    ∃ n n2 n3 r3 : Nat, n2 ≤ 3 ∧ n3 ≤ 24 ∧ r3 ≤ 3 ∧ k = 400 * n + 100 * n2 + 4 * n3 + r3 ∧
      yearDays k = 146097 * n + 36524 * n2 + 1461 * n3 + 365 * r3 := by
  refine ⟨k / 400, (k - 400 * (k / 400)) / 100,
    (k - 400 * (k / 400) - 100 * ((k - 400 * (k / 400)) / 100)) / 4,
    k - 400 * (k / 400) - 100 * ((k - 400 * (k / 400)) / 100) -
      4 * ((k - 400 * (k / 400) - 100 * ((k - 400 * (k / 400)) / 100)) / 4), ?_, ?_, ?_, ?_, rfl⟩
  · omega
  · omega
  · omega
  · omega

/-- Go `daysIn` is the length of the month. -/
theorem daysIn_eq (m : Nat) (year : Int) (h1 : 1 ≤ m) (h2 : m ≤ 12) :
    daysIn m year = monthLength (isLeap year) m := by
  unfold daysIn
  interval_cases m <;> cases isLeap year <;> simp [daysBefore, monthLength]

set_option maxRecDepth 100000 in
/-- The check `monthDayInverts` holds on every month and day. -/
theorem monthDayInverts_all (leap : Bool) :
    ∀ M < 13, ∀ D < 32, monthDayInverts leap M D = true := by
  cases leap <;> decide

/-- `monthDay` inverts the day of the year of a valid calendar day, and that day
of the year lies within the year. -/
theorem monthDay_inverse (leap : Bool) (M D : Nat) (hM1 : 1 ≤ M) (hM2 : M ≤ 12)
    (hD1 : 1 ≤ D) (hD2 : D ≤ monthLength leap M) :
    monthDay leap (daysBefore (M - 1) + (if leap && decide (M ≥ 3) then 1 else 0) + (D - 1))
        = (M, D) ∧
    daysBefore (M - 1) + (if leap && decide (M ≥ 3) then 1 else 0) + (D - 1)
        ≤ (if leap then 365 else 364) := by
  have hD3 : D < 32 := by
    have : monthLength leap M ≤ 31 := by
      unfold monthLength
      split <;> try omega
      split <;> omega
    omega
  have h := monthDayInverts_all leap M (by omega) D hD3
  unfold monthDayInverts at h
  exact (of_decide_eq_true h) hM1 hD1 hD2

set_option maxRecDepth 100000 in
/-- `monthDay` returns a valid month and day for every day of the year. -/
theorem monthDay_valid_aux (leap : Bool) :
    ∀ yd < 366, yd ≤ (if leap then 365 else 364) →
      1 ≤ (monthDay leap yd).1 ∧ (monthDay leap yd).1 ≤ 12 ∧ 1 ≤ (monthDay leap yd).2 ∧
      (monthDay leap yd).2 ≤ monthLength leap (monthDay leap yd).1 := by
  cases leap <;> decide

/-- A day within a 400-year cycle, split at the centuries. -/
theorem split100 (e : Nat) (he : e < 146097) :
    ∃ n2 e2 : Nat, n2 ≤ 3 ∧ e = 36524 * n2 + e2 ∧ (e2 < 36524 ∨ (e2 = 36524 ∧ n2 = 3)) := by
  by_cases h1 : e < 36524
  · exact ⟨0, e, by omega, by omega, by omega⟩
  · by_cases h2 : e < 73048
    · exact ⟨1, e - 36524, by omega, by omega, by omega⟩
    · by_cases h3 : e < 109572
      · exact ⟨2, e - 73048, by omega, by omega, by omega⟩
      · exact ⟨3, e - 109572, by omega, by omega, by omega⟩

/-- A day within a century, split at the 4-year cycles. -/
theorem split4 (e2 : Nat) (he : e2 ≤ 36524) :
    ∃ n3 e3 : Nat, n3 ≤ 24 ∧ e2 = 1461 * n3 + e3 ∧ e3 < 1461 ∧
      (n3 = 24 → e2 < 36524 → e3 < 1460) := by
  refine ⟨e2 / 1461, e2 % 1461, ?_, ?_, ?_, ?_⟩ <;> omega

/-- A day within a 4-year cycle, split at the years. -/
theorem split1 (e3 : Nat) (he : e3 < 1461) :
    ∃ r3 yd : Nat, r3 ≤ 3 ∧ e3 = 365 * r3 + yd ∧ (yd ≤ 364 ∨ (yd = 365 ∧ r3 = 3)) ∧
      (yd = 365 → e3 = 1460) := by
  by_cases h : e3 = 1460
  · exact ⟨3, 365, by omega, by omega, by omega, by omega⟩
  · refine ⟨e3 / 365, e3 % 365, ?_, ?_, ?_, ?_⟩ <;> omega

/-- Every day count splits into 400-year, 100-year and 4-year cycles, a year and
a day of that year. -/
theorem days_decomp (d : Nat) :
    ∃ n n2 n3 r3 yd : Nat, d = 146097 * n + 36524 * n2 + 1461 * n3 + 365 * r3 + yd ∧
      n2 ≤ 3 ∧ n3 ≤ 24 ∧ r3 ≤ 3 ∧
      (yd ≤ 364 ∨ (yd = 365 ∧ r3 = 3 ∧ (n3 ≠ 24 ∨ n2 = 3))) := by
  obtain ⟨n2, e2, h2, he, he2⟩ := split100 (d % 146097) (Nat.mod_lt _ (by norm_num))
  obtain ⟨n3, e3, h3, he3, he3b, hlast⟩ := split4 e2 (by omega)
  obtain ⟨r3, yd, h4, he4, hyd, hyd2⟩ := split1 e3 he3b
  refine ⟨d / 146097, n2, n3, r3, yd, ?_, h2, h3, h4, ?_⟩
  · omega
  · omega

/-- `absClock` reads back hour, minute and second. -/
theorem absClock_eq (d h mi s : Nat) (hh : h < 24) (hmi : mi < 60) (hs : s < 60) :
    absClock (d * 86400 + (h * 3600 + mi * 60 + s)) = (h, mi, s) := by
  unfold absClock secondsPerDay
  have e1 : (d * 86400 + (h * 3600 + mi * 60 + s)) % 86400 = h * 3600 + mi * 60 + s := by omega
  simp only [e1]
  have e2 : (h * 3600 + mi * 60 + s) / 3600 = h := by omega
  simp only [e2]
  have e3 : h * 3600 + mi * 60 + s - h * 3600 = mi * 60 + s := by omega
  simp only [e3]
  have e4 : (mi * 60 + s) / 60 = mi := by omega
  simp only [e4]
  have e5 : mi * 60 + s - mi * 60 = s := by omega
  simp only [e5]

/-- The fields of `absClock` are in range. -/
theorem absClock_lt (abs : Nat) :
    (absClock abs).1 < 24 ∧ (absClock abs).2.1 < 60 ∧ (absClock abs).2.2 < 60 := by
  unfold absClock secondsPerDay
  simp only []
  omega

/-- One digit is left. -/
theorem digitsLoop_small (fuel u : Nat) (acc : List Char) (h : u < 10) :
    digitsLoop (fuel + 1) u acc = digitChar u :: acc := by
  simp [digitsLoop, digitChar, Nat.not_le.mpr h]

/-- One digit is taken off a number of two or more digits. -/
theorem digitsLoop_step (fuel u : Nat) (acc : List Char) (h : 10 ≤ u) :
    digitsLoop (fuel + 1) u acc = digitsLoop fuel (u / 10) (digitChar (u % 10) :: acc) := by
  simp [digitsLoop, digitChar, h]

/-- `appendInt` with width two on a number below 100. -/
theorem appendInt_two (n : Nat) (h : n < 100) :
    appendInt (n : Int) 2 = [digitChar (n / 10), digitChar (n % 10)] := by
  unfold appendInt
  have hneg : ¬ ((n : Int) < 0) := by omega
  simp only [hneg, if_false, Int.natAbs_ofNat, List.nil_append]
  by_cases h1 : n < 10
  · rw [digitsLoop_small _ _ _ h1]
    have e1 : n / 10 = 0 := by omega
    have e2 : n % 10 = n := by omega
    simp [e1, e2, digitChar]
  · rw [digitsLoop_step _ _ _ (by omega), digitsLoop_small _ _ _ (by omega)]
    simp

/-- `appendInt` with width four on a number below 10000. -/
theorem appendInt_four (n : Nat) (h : n < 10000) :
    appendInt (n : Int) 4 =
      [digitChar (n / 1000), digitChar (n / 100 % 10), digitChar (n / 10 % 10),
       digitChar (n % 10)] := by
  unfold appendInt
  have hneg : ¬ ((n : Int) < 0) := by omega
  simp only [hneg, if_false, Int.natAbs_ofNat, List.nil_append]
  by_cases h1 : n < 10
  · rw [digitsLoop_small _ _ _ h1]
    have e1 : n / 1000 = 0 := by omega
    have e2 : n / 100 % 10 = 0 := by omega
    have e3 : n / 10 % 10 = 0 := by omega
    have e4 : n % 10 = n := by omega
    simp [e1, e2, e3, e4, digitChar, List.replicate]
  · by_cases h2 : n < 100
    · rw [digitsLoop_step _ _ _ (by omega), digitsLoop_small _ _ _ (by omega)]
      have e1 : n / 1000 = 0 := by omega
      have e2 : n / 100 % 10 = 0 := by omega
      have e3 : n / 10 % 10 = n / 10 := by omega
      simp [e1, e2, e3, digitChar, List.replicate]
    · by_cases h3 : n < 1000
      · rw [digitsLoop_step _ _ _ (by omega), digitsLoop_step _ _ _ (by omega),
          digitsLoop_small _ _ _ (by omega)]
        have e1 : n / 1000 = 0 := by omega
        have e2 : n / 100 % 10 = n / 10 / 10 := by omega
        simp [e1, e2, digitChar, List.replicate]
      · rw [digitsLoop_step _ _ _ (by omega), digitsLoop_step _ _ _ (by omega),
          digitsLoop_step _ _ _ (by omega), digitsLoop_small _ _ _ (by omega)]
        have e1 : n / 1000 = n / 10 / 10 / 10 := by omega
        have e2 : n / 100 % 10 = n / 10 / 10 % 10 := by omega
        simp [e1, e2]

/-- A digit character is the character of its value. -/
theorem digitChar_digitVal (c : Char) (h : isDigit c = true) : digitChar (digitVal c) = c := by
  unfold isDigit at h
  simp only [Bool.and_eq_true, decide_eq_true_eq] at h
  unfold digitChar digitVal
  have e : 48 + (c.toNat - 48) = c.toNat := by omega
  rw [e]
  exact Char.ofNat_toNat c

/-! ## Formatting a calendar date and time gives back its fields -/

theorem absDate_Date (Y M D h mi s : Nat) (hY : Y ≤ 9999) (hM1 : 1 ≤ M) (hM2 : M ≤ 12)
    (hD1 : 1 ≤ D) (hD2 : D ≤ monthLength (isLeap Y) M) (hsecs : h * 3600 + mi * 60 + s < 86400) :
    absDate ((yearDays (Y + 292277022399) + yearDay Y M D) * 86400 + (h * 3600 + mi * 60 + s))
      = ((Y : Int), M, D) := by
  obtain ⟨n, n2, n3, r3, h2, h3, h4, hk, hyd⟩ := yearDays_decomp (Y + 292277022399)
  obtain ⟨hinv, hle⟩ := monthDay_inverse (isLeap Y) M D hM1 hM2 hD1 hD2
  have hyear : (((400 * n + 100 * n2 + 4 * n3 + r3 : Nat) : Int) - 292277022399) = (Y : Int) := by
    omega
  have hleap := isLeap_index n n2 n3 r3 h2 h3 h4
  rw [hyear] at hleap
  have hydb : yearDay Y M D ≤ 364 ∨ (yearDay Y M D = 365 ∧ r3 = 3 ∧ (n3 ≠ 24 ∨ n2 = 3)) := by
    unfold yearDay
    cases hl : isLeap (Y : Int) with
    | false =>
      rw [hl] at hle
      simp only [Bool.false_eq_true, if_false] at hle
      left
      exact hle
    | true =>
      rw [hl] at hle
      simp only [if_true] at hle
      have := hleap.mp hl
      omega
  have hn : n ≤ 1000000000000 := by omega
  have key := absDate_decomp n n2 n3 r3 (yearDay Y M D) (h * 3600 + mi * 60 + s) hn h2 h3 h4 hydb
    hsecs
  rw [hyear] at key
  have hmd : monthDay (isLeap (Y : Int)) (yearDay Y M D) = (M, D) := hinv
  rw [hmd] at key
  rw [hyd]
  exact key

/-- A coarse bound on the day of the year. -/
theorem yearDay_le (Y M D : Nat) (hD : D ≤ 31) : yearDay Y M D ≤ 400 := by
  unfold yearDay
  have := daysBefore_le (M - 1)
  split <;> omega

/-- No month is longer than 31 days. -/
theorem monthLength_le (leap : Bool) (M : Nat) : monthLength leap M ≤ 31 := by
  unfold monthLength
  split <;> try omega
  split <;> omega

/-- `formatRFC3339UTC` unfolded. -/
theorem formatRFC3339UTC_eq (t : Time) :
    formatRFC3339UTC t =
      String.mk (appendInt (absDate (toUint64 (t.sec + unixToAbsolute))).1 4
        ++ '-' :: appendInt (absDate (toUint64 (t.sec + unixToAbsolute))).2.1 2
        ++ '-' :: appendInt (absDate (toUint64 (t.sec + unixToAbsolute))).2.2 2
        ++ 'T' :: appendInt (absClock (toUint64 (t.sec + unixToAbsolute))).1 2
        ++ ':' :: appendInt (absClock (toUint64 (t.sec + unixToAbsolute))).2.1 2
        ++ ':' :: appendInt (absClock (toUint64 (t.sec + unixToAbsolute))).2.2 2 ++ ['Z']) := by
  rfl

/-- Formatting the instant of calendar fields in range prints those fields. -/
theorem formatRFC3339UTC_Date (Y M D h mi s ns : Nat) (hY : Y ≤ 9999) (hM1 : 1 ≤ M)
    (hM2 : M ≤ 12) (hD1 : 1 ≤ D) (hD2 : D ≤ monthLength (isLeap Y) M) (hh : h < 24)
    (hmi : mi < 60) (hs : s < 60) (hns : ns < 1000000000) :
    formatRFC3339UTC (Date Y M D h mi s ns) = String.mk (timestampChars Y M D h mi s) := by
  have hD3 : D ≤ 31 := le_trans hD2 (monthLength_le _ _)
  rw [Date_eq Y M D h mi s ns hY hM1 hM2 hD1 hD3 hh hmi hs hns]
  rw [formatRFC3339UTC_eq]
  have hyd := yearDay_le Y M D hD3
  have hys := yearDays_le (Y + 292277022399)
  have habs : toUint64 ((((yearDays (Y + 292277022399) + yearDay Y M D) * 86400
      + (h * 3600 + mi * 60 + s) : Nat) : Int) - 9223372028715321600 + unixToAbsolute)
      = (yearDays (Y + 292277022399) + yearDay Y M D) * 86400 + (h * 3600 + mi * 60 + s) := by
    unfold unixToAbsolute
    rw [toUint64_id _ (by omega) (by omega)]
    omega
  simp only [habs]
  rw [absDate_Date Y M D h mi s hY hM1 hM2 hD1 hD2 (by omega), absClock_eq _ h mi s hh hmi hs]
  simp only [appendInt_four Y (by omega), appendInt_two M (by omega), appendInt_two D (by omega),
    appendInt_two h (by omega), appendInt_two mi (by omega), appendInt_two s (by omega),
    timestampChars, List.cons_append, List.nil_append]

/-- The character of a digit is a digit. -/
theorem isDigit_digitChar (d : Nat) (h : d < 10) : isDigit (digitChar d) = true := by
  interval_cases d <;> decide

/-- The value of the character of a digit. -/
theorem digitVal_digitChar (d : Nat) (h : d < 10) : digitVal (digitChar d) = d := by
  interval_cases d <;> decide

/-- `getnum` reads a two-digit field. -/
theorem getnum_digits (n : Nat) (hn : n < 100) (fixed : Bool) (rest : List Char) :
    getnum (digitChar (n / 10) :: digitChar (n % 10) :: rest) fixed = some (n, rest) := by
  have e : n / 10 * 10 + n % 10 = n := by omega
  simp only [getnum, isDigit_digitChar (n / 10) (by omega), isDigit_digitChar (n % 10) (by omega),
    digitVal_digitChar (n / 10) (by omega), digitVal_digitChar (n % 10) (by omega), e,
    Bool.not_true, Bool.false_eq_true, if_false]

/-- `parseLongYear` reads a four-digit year. -/
theorem parseLongYear_digits (Y : Nat) (hY : Y ≤ 9999) (rest : List Char) :
    parseLongYear (digitChar (Y / 1000) :: digitChar (Y / 100 % 10) :: digitChar (Y / 10 % 10)
      :: digitChar (Y % 10) :: rest) = some (Y, rest) := by
  have eY : ((Y / 1000 * 10 + Y / 100 % 10) * 10 + Y / 10 % 10) * 10 + Y % 10 = Y := by omega
  simp only [parseLongYear, isDigit_digitChar (Y / 1000) (by omega),
    isDigit_digitChar (Y / 100 % 10) (by omega), isDigit_digitChar (Y / 10 % 10) (by omega),
    isDigit_digitChar (Y % 10) (by omega), digitVal_digitChar (Y / 1000) (by omega),
    digitVal_digitChar (Y / 100 % 10) (by omega), digitVal_digitChar (Y / 10 % 10) (by omega),
    digitVal_digitChar (Y % 10) (by omega), eY, Bool.and_self, if_true]

/-- `skipLit` drops the literal at the head. -/
theorem skipLit_cons (c : Char) (rest : List Char) : skipLit (c :: rest) c = some rest := by
  simp [skipLit]

/-- The parser reads the text of fields in range as the instant `Date` gives them. -/
theorem parseRFC3339_timestampChars (Y M D h mi s : Nat) (hY : Y ≤ 9999) (hM1 : 1 ≤ M)
    (hM2 : M ≤ 12) (hD1 : 1 ≤ D) (hD2 : D ≤ monthLength (isLeap Y) M) (hh : h < 24)
    (hmi : mi < 60) (hs : s < 60) :
    parseRFC3339 (timestampChars Y M D h mi s) = some (Date Y M D h mi s 0) := by
  have hD3 : D ≤ 31 := le_trans hD2 (monthLength_le _ _)
  have hM0 : ¬ (M = 0 ∨ 12 < M) := by omega
  have hD0 : ¬ (D < 1 ∨ D > daysIn M Y) := by
    rw [daysIn_eq M Y hM1 hM2]
    omega
  have hh0 : ¬ (24 ≤ h) := by omega
  have hmi0 : ¬ (60 ≤ mi) := by omega
  have hs0 : ¬ (60 ≤ s) := by omega
  have hdate : ∀ rest, parseDateChunks (digitChar (Y / 1000) :: digitChar (Y / 100 % 10)
      :: digitChar (Y / 10 % 10) :: digitChar (Y % 10) :: '-' :: digitChar (M / 10)
      :: digitChar (M % 10) :: '-' :: digitChar (D / 10) :: digitChar (D % 10) :: rest)
      = some (Y, M, D, rest) := by
    intro rest
    simp only [parseDateChunks, parseLongYear_digits Y hY, Option.some_bind, skipLit_cons,
      getnum_digits M (by omega), getnum_digits D (by omega), hM0, if_false]
  have hclock : ∀ rest, parseClockChunks (digitChar (h / 10) :: digitChar (h % 10) :: ':'
      :: digitChar (mi / 10) :: digitChar (mi % 10) :: ':' :: digitChar (s / 10)
      :: digitChar (s % 10) :: rest) = some (h, mi, s, rest) := by
    intro rest
    simp only [parseClockChunks, Option.some_bind, skipLit_cons,
      getnum_digits h (by omega), getnum_digits mi (by omega), getnum_digits s (by omega),
      hh0, hmi0, hs0, if_false]
  have hfrac : parseFraction ['Z'] = (0, ['Z']) := by rfl
  have hzone : parseZone ['Z'] = some (0, []) := by rfl
  simp only [timestampChars, parseRFC3339, hdate, hclock, Option.some_bind, skipLit_cons, hfrac,
    hzone, hD0, if_false, ne_eq, not_true_eq_false, Int.sub_zero, Nat.cast_zero]

/-- The conversion to `uint64` is below `2^64`. -/
theorem toUint64_lt (x : Int) : toUint64 x < 18446744073709551616 := by
  unfold toUint64
  omega

/-- Every absolute time splits into a year index, a day of that year and a time
of day, and `absDate` reads the date off that split. -/
theorem absDate_fields (abs : Nat) (habs : abs < 18446744073709551616) :
    ∃ k yd : Nat, absDate abs = ((k : Int) - 292277022399,
        (monthDay (isLeap ((k : Int) - 292277022399)) yd).1,
        (monthDay (isLeap ((k : Int) - 292277022399)) yd).2) ∧
      yd < 366 ∧ yd ≤ (if isLeap ((k : Int) - 292277022399) then 365 else 364) ∧
      k ≤ 600000000000 ∧
      146097 * k ≤ 400 * (abs / 86400) + 591 ∧ 400 * (abs / 86400) ≤ 146097 * k + 146688 := by
  obtain ⟨n, n2, n3, r3, yd, hd, h2, h3, h4, hyd⟩ := days_decomp (abs / 86400)
  have hn : n ≤ 1000000000000 := by omega
  have key := absDate_decomp n n2 n3 r3 yd (abs % 86400) hn h2 h3 h4 hyd
    (Nat.mod_lt _ (by norm_num))
  have eabs : (146097 * n + 36524 * n2 + 1461 * n3 + 365 * r3 + yd) * 86400 + abs % 86400
      = abs := by omega
  rw [eabs] at key
  refine ⟨400 * n + 100 * n2 + 4 * n3 + r3, yd, key, by omega, ?_, by omega, by omega, by omega⟩
  have hleap := isLeap_index n n2 n3 r3 h2 h3 h4
  cases hl : isLeap (((400 * n + 100 * n2 + 4 * n3 + r3 : Nat) : Int) - 292277022399) with
  | false =>
    simp only [Bool.false_eq_true, if_false]
    rw [hl] at hleap
    simp only [Bool.false_eq_true, false_iff, not_and, not_or] at hleap
    omega
  | true =>
    simp only [if_true]
    omega

/-- `utcYear` unfolded. -/
theorem utcYear_eq (t : Time) :
    utcYear t = yearOf (absDate (toUint64 (t.sec + unixToAbsolute))) := rfl

/-- An instant whose UTC year lies in 0..9999 is printed as a canonical timestamp. -/
theorem formatRFC3339UTC_canonical (t : Time) (hy1 : 0 ≤ utcYear t) (hy2 : utcYear t ≤ 9999) :
    IsCanonicalTimestamp (formatRFC3339UTC t) := by
  have hlt : toUint64 (t.sec + unixToAbsolute) < 18446744073709551616 := toUint64_lt _
  obtain ⟨k, yd, hdate, hyd1, hyd2, hk, _, _⟩ := absDate_fields _ hlt
  have hyear : utcYear t = (k : Int) - 292277022399 := by
    rw [utcYear_eq, hdate]
    rfl
  rw [hyear] at hy1 hy2
  rw [formatRFC3339UTC_eq, hdate]
  obtain ⟨hm1, hm2, hd1, hd2⟩ := monthDay_valid_aux (isLeap ((k : Int) - 292277022399)) yd hyd1 hyd2
  obtain ⟨hh, hmi, hs⟩ := absClock_lt (toUint64 (t.sec + unixToAbsolute))
  generalize (monthDay (isLeap ((k : Int) - 292277022399)) yd).1 = M at hm1 hm2 hd2 ⊢
  generalize (monthDay (isLeap ((k : Int) - 292277022399)) yd).2 = D at hd1 hd2 ⊢
  generalize (absClock (toUint64 (t.sec + unixToAbsolute))).1 = h at hh ⊢
  generalize (absClock (toUint64 (t.sec + unixToAbsolute))).2.1 = mi at hmi ⊢
  generalize (absClock (toUint64 (t.sec + unixToAbsolute))).2.2 = s at hs ⊢
  have hD3 : D ≤ 31 := le_trans hd2 (monthLength_le _ _)
  obtain ⟨Y, hY⟩ : ∃ Y : Nat, (k : Int) - 292277022399 = (Y : Int) :=
    ⟨((k : Int) - 292277022399).toNat, by omega⟩
  rw [hY] at hy1 hy2 hd2 ⊢
  refine ⟨Y, M, D, h, mi, s, by omega, hm1, hm2, hd1, hd2, hh, hmi, hs, ?_⟩
  simp only [appendInt_four Y (by omega), appendInt_two M (by omega), appendInt_two D (by omega),
    appendInt_two h (by omega), appendInt_two mi (by omega), appendInt_two s (by omega),
    timestampChars, List.cons_append, List.nil_append]

/-- A timestamp text is not empty. -/
theorem timestamp_ne_empty (Y M D h mi s : Nat) : String.mk (timestampChars Y M D h mi s) ≠ "" := by
  intro h
  have h2 := congrArg String.length h
  simp [timestampChars, String.length] at h2

/-- A canonical timestamp parses, and the instant prints as the same text. -/
theorem timeParse_canonical (x : String) (hx : IsCanonicalTimestamp x) :
    ∃ t, timeParse x = .ok t ∧ formatRFC3339UTC t = x := by
  obtain ⟨Y, M, D, h, mi, s, hY, hM1, hM2, hD1, hD2, hh, hmi, hs, rfl⟩ := hx
  refine ⟨Date Y M D h mi s 0, ?_, ?_⟩
  · unfold timeParse
    simp only [parseRFC3339_timestampChars Y M D h mi s hY hM1 hM2 hD1 hD2 hh hmi hs]
  · have := formatRFC3339UTC_Date Y M D h mi s 0 hY hM1 hM2 hD1 hD2 hh hmi hs (by norm_num)
    simpa using this

/-- The conversion to `int64` is within `int64`. -/
theorem toInt64_bounds (x : Int) :
    -9223372036854775808 ≤ toInt64 x ∧ toInt64 x < 9223372036854775808 := by
  unfold toInt64
  omega

/-- Quotient and remainder of an `int64` by `10^9`, rounding toward zero. -/
theorem tdiv_bounds (n : Int) (h1 : -9223372036854775808 ≤ n) (h2 : n < 9223372036854775808) :
    -9223372036 ≤ n.tdiv 1000000000 ∧ n.tdiv 1000000000 ≤ 9223372036 ∧
    -1000000000 < n - n.tdiv 1000000000 * 1000000000 ∧
    n - n.tdiv 1000000000 * 1000000000 < 1000000000 := by
  by_cases hn : 0 ≤ n
  · rw [Int.tdiv_eq_ediv hn (by norm_num)]
    omega
  · have e : n.tdiv 1000000000 = -((-n) / 1000000000) := by
      have h := Int.neg_tdiv (-n) 1000000000
      rw [Int.neg_neg] at h
      rw [h, Int.tdiv_eq_ediv (by omega) (by norm_num)]
    rw [e]
    omega

/-- The seconds of `Unix(0, n)` for an `int64` count of nanoseconds. -/
theorem Unix_zero_sec (n : Int) (h1 : -9223372036854775808 ≤ n)
    (h2 : n < 9223372036854775808) :
    -9223372037 ≤ (Unix 0 n).sec ∧ (Unix 0 n).sec ≤ 9223372036 := by
  obtain ⟨b1, b2, b3, b4⟩ := tdiv_bounds n h1 h2
  unfold Unix
  generalize n.tdiv 1000000000 = m at b1 b2 b3 b4 ⊢
  have e1 : toInt64 (0 + m) = m := by
    rw [toInt64_id _ (by omega) (by omega)]
    omega
  have e2 : toInt64 (n - m * 1000000000) = n - m * 1000000000 :=
    toInt64_id _ (by omega) (by omega)
  have e3 : toInt64 (m - 1) = m - 1 := toInt64_id _ (by omega) (by omega)
  simp only [e1, e2, e3]
  split
  · split
    · exact ⟨by simp only []; omega, by simp only []; omega⟩
    · exact ⟨by simp only []; omega, by simp only []; omega⟩
  · exact ⟨by simp only []; omega, by simp only []; omega⟩

/-- An instant within 2^63 nanoseconds of the epoch has its UTC year in 0..9999. -/
theorem utcYear_of_sec (t : Time) (h1 : -9223372037 ≤ t.sec) (h2 : t.sec ≤ 9223372036) :
    0 ≤ utcYear t ∧ utcYear t ≤ 9999 := by
  have hlt : toUint64 (t.sec + unixToAbsolute) < 18446744073709551616 := toUint64_lt _
  have habs : toUint64 (t.sec + unixToAbsolute) = (t.sec + 9223372028715321600).toNat := by
    unfold unixToAbsolute
    rw [toUint64_id _ (by omega) (by omega)]
  obtain ⟨k, yd, hdate, hyd1, hyd2, hk, hk1, hk2⟩ := absDate_fields _ hlt
  have hyear : utcYear t = (k : Int) - 292277022399 := by
    rw [utcYear_eq, hdate]
    rfl
  rw [hyear]
  rw [habs] at hk1 hk2
  omega

/-- A canonical timestamp has the canonical shape. -/
theorem isCanonicalUTC_of_canonical (x : String) (hx : IsCanonicalTimestamp x) :
    isCanonicalUTC x = true := by
  obtain ⟨Y, M, D, h, mi, s, hY, hM1, hM2, hD1, hD2, hh, hmi, hs, rfl⟩ := hx
  have hD3 : D ≤ 31 := le_trans hD2 (monthLength_le _ _)
  simp only [isCanonicalUTC, timestampChars,
    isDigit_digitChar (Y / 1000) (by omega), isDigit_digitChar (Y / 100 % 10) (by omega),
    isDigit_digitChar (Y / 10 % 10) (by omega), isDigit_digitChar (Y % 10) (by omega),
    isDigit_digitChar (M / 10) (by omega), isDigit_digitChar (M % 10) (by omega),
    isDigit_digitChar (D / 10) (by omega), isDigit_digitChar (D % 10) (by omega),
    isDigit_digitChar (h / 10) (by omega), isDigit_digitChar (h % 10) (by omega),
    isDigit_digitChar (mi / 10) (by omega), isDigit_digitChar (mi % 10) (by omega),
    isDigit_digitChar (s / 10) (by omega), isDigit_digitChar (s % 10) (by omega),
    decide_True, Bool.and_self]

/-- The digit loop adds at least one character. -/
theorem digitsLoop_length (fuel : Nat) : ∀ (u : Nat) (acc : List Char),
    acc.length + 1 ≤ (digitsLoop fuel u acc).length := by
  induction fuel with
  | zero =>
    intro u acc
    simp [digitsLoop]
  | succ f ih =>
    intro u acc
    unfold digitsLoop
    split
    · have := ih (u / 10) (Char.ofNat (48 + u % 10) :: acc)
      simp only [List.length_cons] at this
      omega
    · simp

/-- `appendInt` pads to the width. -/
theorem appendInt_length (x : Int) (width : Nat) : width ≤ (appendInt x width).length := by
  unfold appendInt
  simp only [List.length_append, List.length_replicate]
  omega

/-- A year of five digits or more is printed with five characters or more. -/
theorem appendInt_length_big (x : Int) (h : 10000 ≤ x) : 5 ≤ (appendInt x 4).length := by
  obtain ⟨n, rfl⟩ : ∃ n : Nat, x = (n : Int) := ⟨x.toNat, by omega⟩
  unfold appendInt
  simp only [Int.natAbs_ofNat, List.length_append]
  have h1 : digitsLoop 19 n [] = digitsLoop 15 (n / 10 / 10 / 10 / 10)
      [digitChar (n / 10 / 10 / 10 % 10), digitChar (n / 10 / 10 % 10), digitChar (n / 10 % 10),
        digitChar (n % 10)] := by
    rw [digitsLoop_step _ _ _ (by omega), digitsLoop_step _ _ _ (by omega),
      digitsLoop_step _ _ _ (by omega), digitsLoop_step _ _ _ (by omega)]
  have h2 := digitsLoop_length 15 (n / 10 / 10 / 10 / 10)
      [digitChar (n / 10 / 10 / 10 % 10), digitChar (n / 10 / 10 % 10), digitChar (n / 10 % 10),
        digitChar (n % 10)]
  rw [← h1] at h2
  simp only [List.length_cons, List.length_nil] at h2
  omega

/-- A negative year is printed with a leading minus sign. -/
theorem appendInt_neg (x : Int) (width : Nat) (h : x < 0) :
    ∃ rest, appendInt x width = '-' :: rest := by
  unfold appendInt
  simp only [h, if_true, List.cons_append, List.nil_append]
  exact ⟨_, rfl⟩

/-- A text that does not have twenty characters does not have the canonical
shape. -/
theorem isCanonicalUTC_length (x : String) (h : x.data.length ≠ 20) :
    isCanonicalUTC x = false := by
  unfold isCanonicalUTC
  split
  · rename_i heq
    rw [heq] at h
    simp at h
  · rfl

/-- A text that starts with a minus sign does not have the canonical shape. -/
theorem isCanonicalUTC_minus (rest : List Char) :
    isCanonicalUTC (String.mk ('-' :: rest)) = false := by
  unfold isCanonicalUTC
  split
  · rename_i heq
    simp only [List.cons.injEq] at heq
    obtain ⟨h0, _⟩ := heq
    rw [← h0]
    have : isDigit '-' = false := by decide
    simp [this]
  · rfl

/-- An instant whose UTC year lies outside 0..9999 is not printed in the
canonical shape. -/
theorem formatRFC3339UTC_not_canonical (t : Time) (h : utcYear t < 0 ∨ 9999 < utcYear t) :
    isCanonicalUTC (formatRFC3339UTC t) = false := by
  have hlt : toUint64 (t.sec + unixToAbsolute) < 18446744073709551616 := toUint64_lt _
  obtain ⟨k, yd, hdate, _, _, _, _, _⟩ := absDate_fields _ hlt
  have hyear : utcYear t = (k : Int) - 292277022399 := by
    rw [utcYear_eq, hdate]
    rfl
  rw [hyear] at h
  rw [formatRFC3339UTC_eq, hdate]
  simp only []
  rcases h with h | h
  · obtain ⟨rest, hr⟩ := appendInt_neg ((k : Int) - 292277022399) 4 h
    rw [hr]
    exact isCanonicalUTC_minus _
  · apply isCanonicalUTC_length
    have l1 := appendInt_length_big ((k : Int) - 292277022399) (by omega)
    simp only [List.length_append, List.length_cons, List.length_nil]
    have l2 := appendInt_length
      ((monthDay (isLeap ((k : Int) - 292277022399)) yd).1 : Int) 2
    have l3 := appendInt_length
      ((monthDay (isLeap ((k : Int) - 292277022399)) yd).2 : Int) 2
    have l4 := appendInt_length ((absClock (toUint64 (t.sec + unixToAbsolute))).1 : Int) 2
    have l5 := appendInt_length ((absClock (toUint64 (t.sec + unixToAbsolute))).2.1 : Int) 2
    have l6 := appendInt_length ((absClock (toUint64 (t.sec + unixToAbsolute))).2.2 : Int) 2
    omega

/-! ## Range validation -/

/-- C1: when both bounds are non-empty and parse as RFC 3339, a start instant
strictly after the end instant makes `ValidateRange` return the range-order
error under either policy, and equal instants make it return no error. -/
theorem ValidateRange_order (q : LQLQuery) (w : World) (allowEmptyTimes : Bool)
    (s e : Time) (hs : q.StartTimeRange ≠ "") (he : q.EndTimeRange ≠ "")
    (hps : timeParse q.StartTimeRange = .ok s) (hpe : timeParse q.EndTimeRange = .ok e) :
    ((e.sec < s.sec ∨ (e.sec = s.sec ∧ e.nsec < s.nsec)) →
      q.ValidateRange w allowEmptyTimes = some rangeOrderError) ∧
    (s = e → q.ValidateRange w allowEmptyTimes = none) := by
  constructor
  · intro h
    have hafter : s.After e = true := by
      unfold Time.After
      rcases h with h | ⟨h1, h2⟩
      · simp [h]
      · simp [h1, h2]
    simp [LQLQuery.ValidateRange, hs, he, hps, hpe, hafter, rangeOrderError]
  · intro h
    subst h
    have hafter : s.After s = false := by simp [Time.After]
    simp [LQLQuery.ValidateRange, hs, he, hps, hpe, hafter]

/-- C1 at `2020-01-02T00:00:00Z` > `2020-01-01T00:00:00Z` under both policies,
and at two texts of one instant. -/
theorem ValidateRange_order_witness :
    (textQuery "q" "2020-01-02T00:00:00Z" "2020-01-01T00:00:00Z").ValidateRange
        (absoluteWorld someNow) false = some rangeOrderError ∧
    (textQuery "q" "2020-01-02T00:00:00Z" "2020-01-01T00:00:00Z").ValidateRange
        (absoluteWorld someNow) true = some rangeOrderError ∧
    (textQuery "q" "2020-01-02T00:00:00Z" "2020-01-02T01:00:00+01:00").ValidateRange
        (absoluteWorld someNow) false = none :=
  ⟨(ValidateRange_order (textQuery "q" "2020-01-02T00:00:00Z" "2020-01-01T00:00:00Z")
      (absoluteWorld someNow) false ⟨1577923200, 0⟩ ⟨1577836800, 0⟩
      (by decide) (by decide) (by rfl) (by rfl)).1 (by decide),
   (ValidateRange_order (textQuery "q" "2020-01-02T00:00:00Z" "2020-01-01T00:00:00Z")
      (absoluteWorld someNow) true ⟨1577923200, 0⟩ ⟨1577836800, 0⟩
      (by decide) (by decide) (by rfl) (by rfl)).1 (by decide),
   (ValidateRange_order (textQuery "q" "2020-01-02T00:00:00Z" "2020-01-02T01:00:00+01:00")
      (absoluteWorld someNow) false ⟨1577923200, 0⟩ ⟨1577923200, 0⟩
      (by decide) (by decide) (by rfl) (by rfl)).2 rfl⟩

/-- C9: with an empty start, `ValidateRange(false)` returns "start time must not
be empty" whatever the end expression is. -/
theorem ValidateRange_empty_start (q : LQLQuery) (w : World)
    (hs : q.StartTimeRange = "") :
    q.ValidateRange w false = some emptyStartError := by
  simp [LQLQuery.ValidateRange, hs, emptyStartError]

/-- C9 with a malformed end expression. -/
theorem ValidateRange_empty_start_witness :
    (textQuery "q" "" "not a time").ValidateRange (absoluteWorld someNow) false
      = some (GoError.errorsNew "start time must not be empty") :=
  ValidateRange_empty_start (textQuery "q" "" "not a time") (absoluteWorld someNow) rfl

/-! ## Translation of the blob -/

/-- C5: with an empty `QueryText` and a blob that decodes as the JSON record
`t`, `TranslateQuery` succeeds; each time bound keeps the caller's value when
that is non-empty and takes the decoded one otherwise; `QueryText` becomes the
decoded text; `ID` and `QueryBlob` are unchanged. -/
theorem TranslateQuery_json (q t : LQLQuery) (hq : q.QueryText = "")
    (ht : jsonUnmarshal q.QueryBlob = some t) :
    q.TranslateQuery =
      ({ ID := q.ID,
         StartTimeRange := if q.StartTimeRange ≠ "" then q.StartTimeRange else t.StartTimeRange,
         EndTimeRange := if q.EndTimeRange ≠ "" then q.EndTimeRange else t.EndTimeRange,
         QueryText := t.QueryText,
         QueryBlob := q.QueryBlob }, none) := by
  unfold LQLQuery.TranslateQuery
  simp only [hq, ht, ne_eq, not_true_eq_false, if_false]
  by_cases h1 : q.StartTimeRange = "" <;> by_cases h2 : q.EndTimeRange = "" <;>
    simp [h1, h2]

set_option maxRecDepth 100000 in
/-- C5 on a record blob, the caller having set the start bound only. -/
theorem TranslateQuery_json_witness :
    ({ blobQuery recordBlob with ID := "id", StartTimeRange := "-1d" }).TranslateQuery =
      ({ ID := "id", StartTimeRange := "-1d", EndTimeRange := "2020-01-02T00:00:00Z",
         QueryText := "q(x) \x7b source\x7bA\x7d return\x7bB\x7d \x7d", QueryBlob := recordBlob }, none) :=
  TranslateQuery_json { blobQuery recordBlob with ID := "id", StartTimeRange := "-1d" }
    { ID := "", StartTimeRange := "2020-01-01T00:00:00Z", EndTimeRange := "2020-01-02T00:00:00Z",
      QueryText := "q(x) \x7b source\x7bA\x7d return\x7bB\x7d \x7d", QueryBlob := "" }
    (by decide) (by decide)

/-- C6: with an empty `QueryText` and a blob that neither decodes as JSON nor
matches `reLQL`, `TranslateQuery` returns "unable to translate query blob" and
leaves every field as it was. -/
theorem TranslateQuery_untranslatable (q : LQLQuery) (hq : q.QueryText = "")
    (hjson : jsonUnmarshal q.QueryBlob = none) (hre : MatchString q.QueryBlob = false) :
    q.TranslateQuery = (q, some (GoError.errorsNew "unable to translate query blob")) := by
  simp [LQLQuery.TranslateQuery, hq, hjson, hre, LQLQueryTranslateError]

/-- C6 on the blob `not json and not a query block`. -/
theorem TranslateQuery_untranslatable_witness :
    (blobQuery "not json and not a query block").TranslateQuery =
      (blobQuery "not json and not a query block",
        some (GoError.errorsNew "unable to translate query blob")) :=
  TranslateQuery_untranslatable (blobQuery "not json and not a query block")
    (by decide) (by decide) (by decide)

/-- No text of the form "unable to parse time (…)" is the text "start time must
not be empty". -/
theorem emptyStartError_ne_timeParseError (inTime : String) :
    emptyStartError ≠ timeParseError inTime := by
  intro h
  have h2 := congrArg String.data (GoError.errorsNew.inj h)
  simp [String.data_append] at h2

/-- `MatchString` does not match the empty text. -/
theorem MatchString_ne_empty (s : String) (h : MatchString s = true) : s ≠ "" := by
  intro hs
  subst hs
  revert h
  decide

/-- C3, as amended: `Validate(true)` on the blob `braceBlob` returns "unable to
translate query blob" and leaves the query as it was; on `signatureBlob`, with a
clock not before the Unix epoch, it returns no error and `QueryText` is the blob
verbatim. -/
theorem Validate_braceBlob (w : World) (hnow : 0 ≤ w.Now.sec) :
    (blobQuery braceBlob).Validate w true =
      (blobQuery braceBlob, some (GoError.errorsNew "unable to translate query blob")) ∧
    (blobQuery signatureBlob).Validate w true =
      ({ blobQuery signatureBlob with QueryText := signatureBlob }, none) := by
  have h1 : jsonUnmarshal braceBlob = none := by decide
  have h2 : MatchString braceBlob = false := by decide
  have h3 : jsonUnmarshal signatureBlob = none := by decide
  have h4 : MatchString signatureBlob = true := by decide
  have h5 : signatureBlob ≠ "" := by decide
  have h6 : (Unix 0 0).After w.Now = false := by
    have hu : Unix 0 0 = ⟨0, 0⟩ := by decide
    rw [hu]
    unfold Time.After
    simp only [Bool.or_eq_false_iff, Bool.and_eq_false_iff, decide_eq_false_iff_not]
    constructor
    · omega
    · right; omega
  constructor
  · simp [LQLQuery.Validate, LQLQuery.Translate, LQLQuery.TranslateQuery, blobQuery, h1, h2,
      LQLQueryTranslateError]
  · simp [LQLQuery.Validate, LQLQuery.Translate, LQLQuery.TranslateQuery, blobQuery, h3, h4, h5,
      LQLQuery.TranslateTime, LQLQuery.ValidateRange, h6]

/-- C3, as amended, under the clock `someNow`. -/
theorem Validate_braceBlob_witness :
    (blobQuery braceBlob).Validate (absoluteWorld someNow) true =
      (blobQuery braceBlob, some (GoError.errorsNew "unable to translate query blob")) ∧
    (blobQuery signatureBlob).Validate (absoluteWorld someNow) true =
      ({ blobQuery signatureBlob with QueryText := signatureBlob }, none) :=
  Validate_braceBlob (absoluteWorld someNow) (by decide)

/-- C3 fails as stated: under no clock and no relative-time grammar does
`Validate(true)` succeed on the blob `braceBlob`. -/
theorem Validate_braceBlob_fails :
    ¬ ∃ w : World, ((blobQuery braceBlob).Validate w true).2 = none := by
  rintro ⟨w, h⟩
  have h1 : jsonUnmarshal braceBlob = none := by decide
  have h2 : MatchString braceBlob = false := by decide
  simp [LQLQuery.Validate, LQLQuery.Translate, LQLQuery.TranslateQuery, blobQuery, h1, h2] at h

/-- C10, as amended: when `TranslateQuery` returns no error, either the
resulting `QueryText` is non-empty, or `QueryText` was empty and the blob
decoded as a JSON value with an empty query text, in which case the result
keeps an empty `QueryText`. `Translate` leaves `QueryText` as `TranslateQuery`
set it, and `Validate` never returns no error with an empty `QueryText`. -/
theorem TranslateQuery_text (q : LQLQuery) (h : q.TranslateQuery.2 = none) :
    (q.TranslateQuery.1.QueryText ≠ "" ∨
      (q.QueryText = "" ∧ q.TranslateQuery.1.QueryText = "" ∧
        ∃ t, jsonUnmarshal q.QueryBlob = some t ∧ t.QueryText = "")) ∧
    (∀ w : World, (q.Translate w).1.QueryText = q.TranslateQuery.1.QueryText) ∧
    (∀ (w : World) (allowEmptyTimes : Bool), (q.Validate w allowEmptyTimes).2 = none →
      (q.Validate w allowEmptyTimes).1.QueryText ≠ "") := by
  refine ⟨?_, ?_, ?_⟩
  · unfold LQLQuery.TranslateQuery at h ⊢
    by_cases hq : q.QueryText = ""
    · cases hj : jsonUnmarshal q.QueryBlob with
      | some t =>
        by_cases ht : t.QueryText = ""
        · right
          simp [hq, ht]
        · left
          simp [hq, ht]
      | none =>
        by_cases hm : MatchString q.QueryBlob = true
        · left
          simp [hq, hm, MatchString_ne_empty _ hm]
        · simp [hq, hj, hm] at h
    · left
      simp [hq]
  · intro w
    unfold LQLQuery.Translate
    rcases hq : q.TranslateQuery with ⟨q1, e1⟩
    cases e1 with
    | some err => rfl
    | none =>
      simp only []
      rcases hs : q1.TranslateTime w q1.StartTimeRange with ⟨s, es⟩
      cases es with
      | some err => rfl
      | none =>
        simp only []
        rcases he : LQLQuery.TranslateTime { q1 with StartTimeRange := s } w
          ({ q1 with StartTimeRange := s } : LQLQuery).EndTimeRange with ⟨e, ee⟩
        cases ee <;> rfl
  · intro w allow hv
    unfold LQLQuery.Validate at hv ⊢
    rcases ht : q.Translate w with ⟨q1, e1⟩
    rw [ht] at hv
    cases e1 with
    | some err => simp at hv
    | none =>
      simp only [] at hv ⊢
      cases hr : q1.ValidateRange w allow with
      | some err =>
        rw [hr] at hv
        simp at hv
      | none =>
        rw [hr] at hv
        simp only [] at hv ⊢
        by_cases hq : q1.QueryText = ""
        · simp [hq] at hv
        · simp [hq]

/-- C10, as amended, on a query whose text is already set. -/
theorem TranslateQuery_text_witness :
    ((textQuery "q(x) \x7b" "" "").TranslateQuery.1.QueryText ≠ "" ∨
      ((textQuery "q(x) \x7b" "" "").QueryText = "" ∧
        (textQuery "q(x) \x7b" "" "").TranslateQuery.1.QueryText = "" ∧
        ∃ t, jsonUnmarshal (textQuery "q(x) \x7b" "" "").QueryBlob = some t ∧
          t.QueryText = "")) ∧
    (∀ w : World, ((textQuery "q(x) \x7b" "" "").Translate w).1.QueryText
      = (textQuery "q(x) \x7b" "" "").TranslateQuery.1.QueryText) ∧
    (∀ (w : World) (allowEmptyTimes : Bool),
      ((textQuery "q(x) \x7b" "" "").Validate w allowEmptyTimes).2 = none →
      ((textQuery "q(x) \x7b" "" "").Validate w allowEmptyTimes).1.QueryText ≠ "") :=
  TranslateQuery_text (textQuery "q(x) \x7b" "" "") (by decide)

/-- C10 fails as stated: on the non-empty blob `{}` and an empty `QueryText`,
`TranslateQuery` and `Translate` return no error and `QueryText` stays empty. -/
theorem TranslateQuery_empty_text :
    (blobQuery "\x7b\x7d").QueryBlob ≠ "" ∧ (blobQuery "\x7b\x7d").QueryText = "" ∧
    (blobQuery "\x7b\x7d").TranslateQuery = (blobQuery "\x7b\x7d", none) ∧
    (blobQuery "\x7b\x7d").Translate (absoluteWorld someNow) = (blobQuery "\x7b\x7d", none) := by
  decide

/-! ## Translation of the time expressions -/

/-- C4, as amended: when the relative-time grammar rejects it,
`TranslateTime("1594927200000")` returns `2020-07-16T19:20:00Z` and no error. -/
theorem TranslateTime_millis (q : LQLQuery) (w : World)
    (hrel : w.ParseRelative "1594927200000" = none) :
    q.TranslateTime w "1594927200000" = ("2020-07-16T19:20:00Z", none) := by
  have h1 : timeParse "1594927200000" = .error (.parseError "1594927200000") := by rfl
  have h2 : ParseInt "1594927200000" = some 1594927200000 := by decide
  have h3 : formatRFC3339UTC (Unix 0 (toInt64 (1594927200000 * Millisecond)))
      = "2020-07-16T19:20:00Z" := by decide
  have h4 : ("1594927200000" : String) ≠ "" := by decide
  simp [LQLQuery.TranslateTime, hrel, h1, h2, h3, h4]

/-- C4, as amended, in a world without relative times. -/
theorem TranslateTime_millis_witness :
    (blobQuery "").TranslateTime (absoluteWorld someNow) "1594927200000"
      = ("2020-07-16T19:20:00Z", none) :=
  TranslateTime_millis (blobQuery "") (absoluteWorld someNow) rfl

/-- C4 fails as stated: the result is not `2020-07-16T18:00:00Z`. -/
theorem TranslateTime_millis_not_18h :
    ¬ ∀ (q : LQLQuery) (w : World), w.ParseRelative "1594927200000" = none →
      q.TranslateTime w "1594927200000" = ("2020-07-16T18:00:00Z", none) := by
  intro h
  have h1 := h (blobQuery "") (absoluteWorld someNow) rfl
  revert h1
  decide

/-- C2, what the code does: when the query text is set, the start expression
resolves to `start` and the non-empty end expression matches none of the three
grammars, `Translate` returns no error and leaves the end expression raw, and
`Validate` fails under either policy with an error other than "unable to parse
time (E)". -/
theorem Translate_drops_end_error (q : LQLQuery) (w : World) (start : String)
    (hq : q.QueryText ≠ "")
    (hstart : q.TranslateTime w q.StartTimeRange = (start, none))
    (he : q.EndTimeRange ≠ "")
    (hrel : w.ParseRelative q.EndTimeRange = none)
    (hrfc : timeParse q.EndTimeRange = .error (.parseError q.EndTimeRange))
    (hint : ParseInt q.EndTimeRange = none) :
    q.Translate w = ({ q with StartTimeRange := start }, none) ∧
    ∀ allowEmptyTimes : Bool,
      (q.Validate w allowEmptyTimes).2 ≠ none ∧
      (q.Validate w allowEmptyTimes).2 ≠ some (timeParseError q.EndTimeRange) := by
  have hend : ∀ q2 : LQLQuery, q2.TranslateTime w q.EndTimeRange
      = ("", some (timeParseError q.EndTimeRange)) := by
    intro q2
    simp [LQLQuery.TranslateTime, he, hrel, hrfc, hint, timeParseError]
  have hstart2 : ∀ q2 : LQLQuery, q2.TranslateTime w q.StartTimeRange = (start, none) := by
    intro q2
    simpa [LQLQuery.TranslateTime] using hstart
  have htq : q.TranslateQuery = (q, none) := by
    simp [LQLQuery.TranslateQuery, hq]
  have htr : q.Translate w = ({ q with StartTimeRange := start }, none) := by
    simp [LQLQuery.Translate, htq, hstart2, hend]
  refine ⟨htr, ?_⟩
  intro allow
  simp only [LQLQuery.Validate, htr, LQLQuery.ValidateRange]
  by_cases hs : start = ""
  · cases allow
    · simp [hs, emptyStartError_ne_timeParseError,
        (show GoError.errorsNew "start time must not be empty" = emptyStartError from rfl)]
    · simp [hs, he, hrfc, timeParseError]
  · cases hp : timeParse start with
    | error e =>
      have : e = .parseError start := by
        unfold timeParse at hp
        split at hp <;> simp_all
      simp [hs, this, timeParseError]
    | ok t => simp [hs, he, hrfc, timeParseError]

/-- C2 at the query text `q(x) {`, start `2020-01-01T00:00:00Z`, end `not-a-time`:
`Translate` returns no error, and `Validate` returns the `time.Parse` error of
`ValidateRange`. -/
theorem Translate_drops_end_error_witness :
    (textQuery "q(x) \x7b" "2020-01-01T00:00:00Z" "not-a-time").Translate (absoluteWorld someNow)
      = (textQuery "q(x) \x7b" "2020-01-01T00:00:00Z" "not-a-time", none) ∧
    ∀ allowEmptyTimes : Bool,
      ((textQuery "q(x) \x7b" "2020-01-01T00:00:00Z" "not-a-time").Validate
        (absoluteWorld someNow) allowEmptyTimes).2 ≠ none ∧
      ((textQuery "q(x) \x7b" "2020-01-01T00:00:00Z" "not-a-time").Validate
        (absoluteWorld someNow) allowEmptyTimes).2 ≠ some (timeParseError "not-a-time") :=
  Translate_drops_end_error (textQuery "q(x) \x7b" "2020-01-01T00:00:00Z" "not-a-time")
    (absoluteWorld someNow) "2020-01-01T00:00:00Z"
    (by decide) (by decide) (by decide) rfl (by rfl) (by decide)

/-- C8, as amended: when the relative-time grammar does not accept `x`, and `x`
is a canonical RFC 3339 UTC timestamp, or the rendering of an instant whose UTC
year lies in 0..9999 (which is then canonical), `TranslateTime(x)` returns `x`
itself and no error. -/
theorem TranslateTime_canonical (q : LQLQuery) (w : World) (x : String) (t : Time)
    (hrel : w.ParseRelative x = none)
    (hx : IsCanonicalTimestamp x ∨
      (x = formatRFC3339UTC t ∧ 0 ≤ utcYear t ∧ utcYear t ≤ 9999)) :
    q.TranslateTime w x = (x, none) := by
  have hc : IsCanonicalTimestamp x := by
    rcases hx with hx | ⟨rfl, h1, h2⟩
    · exact hx
    · exact formatRFC3339UTC_canonical t h1 h2
  have hne : x ≠ "" := by
    obtain ⟨Y, M, D, h, mi, s, _, _, _, _, _, _, _, _, rfl⟩ := hc
    exact timestamp_ne_empty Y M D h mi s
  obtain ⟨t', hp, hf⟩ := timeParse_canonical x hc
  simp [LQLQuery.TranslateTime, hne, hrel, hp, hf]

/-- C8, as amended, at the leap day `2020-02-29T23:59:59Z`. -/
theorem TranslateTime_canonical_witness :
    (blobQuery "").TranslateTime (absoluteWorld someNow) "2020-02-29T23:59:59Z"
      = ("2020-02-29T23:59:59Z", none) :=
  TranslateTime_canonical (blobQuery "") (absoluteWorld someNow) "2020-02-29T23:59:59Z" ⟨0, 0⟩ rfl
    (Or.inl ⟨2020, 2, 29, 23, 59, 59, by decide, by decide, by decide, by decide, by decide,
      by decide, by decide, by decide, by decide⟩)

/-- C8 fails as stated: the successful output `10000-01-01T00:59:59Z` of the
absolute input `9999-12-31T23:59:59-01:00` is rejected when it is translated
again. -/
theorem TranslateTime_not_idempotent :
    (blobQuery "").TranslateTime (absoluteWorld someNow) "9999-12-31T23:59:59-01:00"
      = ("10000-01-01T00:59:59Z", none) ∧
    (blobQuery "").TranslateTime (absoluteWorld someNow) "10000-01-01T00:59:59Z"
      = ("", some (timeParseError "10000-01-01T00:59:59Z")) := by
  decide

/-- C7, as amended: `TranslateTime(x)` has exactly one of three outcomes: `x` is
empty and the result is empty with no error; or `x` is not empty, there is no
error and the result is the RFC 3339 UTC rendering of an instant, which has the
canonical shape exactly when the UTC year of the instant lies in 0..9999, is
then a canonical timestamp, and is so for every input read as epoch
milliseconds; or `x` is not empty and the result is empty with the error
"unable to parse time (x)". -/
theorem TranslateTime_outcomes (q : LQLQuery) (w : World) (x : String) :
    (x = "" ∧ q.TranslateTime w x = ("", none)) ∨
    (x ≠ "" ∧ ∃ t : Time, q.TranslateTime w x = (formatRFC3339UTC t, none) ∧
      (isCanonicalUTC (formatRFC3339UTC t) = true ↔ (0 ≤ utcYear t ∧ utcYear t ≤ 9999)) ∧
      (isCanonicalUTC (formatRFC3339UTC t) = true → IsCanonicalTimestamp (formatRFC3339UTC t)) ∧
      (w.ParseRelative x = none → (∀ u, timeParse x ≠ .ok u) →
        isCanonicalUTC (formatRFC3339UTC t) = true)) ∨
    (x ≠ "" ∧ q.TranslateTime w x = ("", some (timeParseError x))) := by
  have hiff : ∀ t : Time,
      (isCanonicalUTC (formatRFC3339UTC t) = true ↔ (0 ≤ utcYear t ∧ utcYear t ≤ 9999)) := by
    intro t
    constructor
    · intro h
      by_contra hc
      have hout : utcYear t < 0 ∨ 9999 < utcYear t := by omega
      rw [formatRFC3339UTC_not_canonical t hout] at h
      exact absurd h (by decide)
    · intro h
      exact isCanonicalUTC_of_canonical _ (formatRFC3339UTC_canonical t h.1 h.2)
  have hcanon : ∀ t : Time, isCanonicalUTC (formatRFC3339UTC t) = true →
      IsCanonicalTimestamp (formatRFC3339UTC t) := by
    intro t h
    have h2 := (hiff t).mp h
    exact formatRFC3339UTC_canonical t h2.1 h2.2
  by_cases hx : x = ""
  · left
    exact ⟨hx, by simp [LQLQuery.TranslateTime, hx]⟩
  · right
    cases hrel : w.ParseRelative x with
    | some t =>
      left
      refine ⟨hx, t, by simp [LQLQuery.TranslateTime, hx, hrel], hiff t, hcanon t, ?_⟩
      intro h
      exact absurd h (by simp)
    | none =>
      cases hp : timeParse x with
      | ok t =>
        left
        refine ⟨hx, t, by simp [LQLQuery.TranslateTime, hx, hrel, hp], hiff t, hcanon t, ?_⟩
        intro _ h
        exact absurd rfl (h t)
      | error e =>
        cases hi : ParseInt x with
        | some i =>
          left
          refine ⟨hx, Unix 0 (toInt64 (i * Millisecond)),
            by simp [LQLQuery.TranslateTime, hx, hrel, hp, hi], hiff _, hcanon _, ?_⟩
          intro _ _
          obtain ⟨b1, b2⟩ := toInt64_bounds (i * Millisecond)
          obtain ⟨s1, s2⟩ := Unix_zero_sec _ b1 b2
          exact (hiff _).mpr (utcYear_of_sec _ s1 s2)
        | none =>
          right
          exact ⟨hx, by simp [LQLQuery.TranslateTime, hx, hrel, hp, hi, timeParseError]⟩

/-- C7 fails as stated: the RFC 3339 input `9999-12-31T23:59:59-01:00` resolves
without error to `10000-01-01T00:59:59Z`, which is not of the canonical shape. -/
theorem TranslateTime_five_digit_year :
    (blobQuery "").TranslateTime (absoluteWorld someNow) "9999-12-31T23:59:59-01:00"
      = ("10000-01-01T00:59:59Z", none) ∧
    isCanonicalUTC "10000-01-01T00:59:59Z" = false ∧
    ("9999-12-31T23:59:59-01:00" : String) ≠ "" := by
  decide

/-! ## Defaulted bounds -/

/-- The Unix epoch, as `time.Unix(0, 0)` gives it. -/
theorem Unix_zero : Unix 0 0 = { sec := 0, nsec := 0 } := by
  decide

/-- C12: under `allowEmptyTimes = true` the order check also runs on defaulted
bounds: an empty start with an end that parses to an instant before the Unix
epoch, and an empty end with a start that parses to an instant after the clock
reading, both give the range-order error. -/
theorem ValidateRange_defaults_order (q : LQLQuery) (w : World) (t : Time)
    (h : (q.StartTimeRange = "" ∧ q.EndTimeRange ≠ "" ∧ timeParse q.EndTimeRange = .ok t ∧
            t.sec < 0) ∨
         (q.EndTimeRange = "" ∧ q.StartTimeRange ≠ "" ∧ timeParse q.StartTimeRange = .ok t ∧
            (w.Now.sec < t.sec ∨ (w.Now.sec = t.sec ∧ w.Now.nsec < t.nsec)))) :
    q.ValidateRange w true = some rangeOrderError := by
  rcases h with ⟨hs, he, hp, hlt⟩ | ⟨he, hs, hp, hlt⟩
  · have hafter : (Unix 0 0).After t = true := by
      rw [Unix_zero]
      unfold Time.After
      simp only [Bool.or_eq_true, decide_eq_true_eq]
      left
      exact hlt
    simp [LQLQuery.ValidateRange, hs, he, hp, hafter, rangeOrderError]
  · have hafter : t.After w.Now = true := by
      unfold Time.After
      rcases hlt with h1 | ⟨h1, h2⟩
      · simp [h1]
      · simp [h1, h2]
    simp [LQLQuery.ValidateRange, hs, he, hp, hafter, rangeOrderError]

/-- C12 at the end `1969-12-31T00:00:00Z`, and at the start
`2021-06-02T00:00:00Z` under the clock `someNow`. -/
theorem ValidateRange_defaults_order_witness :
    (textQuery "q" "" "1969-12-31T00:00:00Z").ValidateRange (absoluteWorld someNow) true
      = some rangeOrderError ∧
    (textQuery "q" "2021-06-02T00:00:00Z" "").ValidateRange (absoluteWorld someNow) true
      = some rangeOrderError :=
  ⟨ValidateRange_defaults_order (textQuery "q" "" "1969-12-31T00:00:00Z")
      (absoluteWorld someNow) ⟨-86400, 0⟩
      (Or.inl ⟨by decide, by decide, by rfl, by decide⟩),
   ValidateRange_defaults_order (textQuery "q" "2021-06-02T00:00:00Z" "")
      (absoluteWorld someNow) ⟨1622592000, 0⟩
      (Or.inr ⟨by decide, by decide, by rfl, by decide⟩)⟩

/-- C15: with a query text, no time expression and a clock not before the Unix
epoch, `Validate(true)` returns no error and the query as it was; the range
check compares the Unix epoch with the clock reading. -/
theorem Validate_open_range (q : LQLQuery) (w : World) (hq : q.QueryText ≠ "")
    (hs : q.StartTimeRange = "") (he : q.EndTimeRange = "") (hnow : 0 ≤ w.Now.sec) :
    q.Validate w true = (q, none) ∧
    q.ValidateRange w true
      = (if (Unix 0 0).After w.Now then some rangeOrderError else none) ∧
    (Unix 0 0).After w.Now = false := by
  have hafter : (Unix 0 0).After w.Now = false := by
    rw [Unix_zero]
    unfold Time.After
    simp only [Bool.or_eq_false_iff, Bool.and_eq_false_iff, decide_eq_false_iff_not]
    constructor
    · omega
    · right; omega
  have hrange : q.ValidateRange w true
      = (if (Unix 0 0).After w.Now then some rangeOrderError else none) := by
    simp [LQLQuery.ValidateRange, hs, he, rangeOrderError]
  refine ⟨?_, hrange, hafter⟩
  have htq : q.TranslateQuery = (q, none) := by
    simp [LQLQuery.TranslateQuery, hq]
  have htr : q.Translate w = (q, none) := by
    simp [LQLQuery.Translate, htq, LQLQuery.TranslateTime, hs, he]
    rcases q with ⟨a, b, c, d, e⟩
    simp_all
  have hvr : q.ValidateRange w true = none := by
    rw [hrange, hafter]
    rfl
  simp [LQLQuery.Validate, htr, hvr, hq]

/-- C15 under the clock `someNow`. -/
theorem Validate_open_range_witness :
    (textQuery "q(x) \x7b" "" "").Validate (absoluteWorld someNow) true
      = (textQuery "q(x) \x7b" "" "", none) ∧
    (textQuery "q(x) \x7b" "" "").ValidateRange (absoluteWorld someNow) true
      = (if (Unix 0 0).After (absoluteWorld someNow).Now then some rangeOrderError else none) ∧
    (Unix 0 0).After (absoluteWorld someNow).Now = false :=
  Validate_open_range (textQuery "q(x) \x7b" "" "") (absoluteWorld someNow)
    (by decide) (by decide) (by decide) (by decide)

/-! ## What a successful translation and validation leave in the query -/

/-- The rendering of an instant is a canonical timestamp exactly when the UTC
year of the instant lies in 0..9999. -/
theorem formatRFC3339UTC_canonical_iff (t : Time) :
    IsCanonicalTimestamp (formatRFC3339UTC t) ↔ (0 ≤ utcYear t ∧ utcYear t ≤ 9999) := by
  constructor
  · intro h
    have h1 := isCanonicalUTC_of_canonical _ h
    by_contra hc
    have hout : utcYear t < 0 ∨ 9999 < utcYear t := by omega
    rw [formatRFC3339UTC_not_canonical t hout] at h1
    exact absurd h1 (by decide)
  · intro h
    exact formatRFC3339UTC_canonical t h.1 h.2

/-- A successful `TranslateTime` returns the empty text or the rendering of an
instant. -/
theorem TranslateTime_success (q : LQLQuery) (w : World) (x out : String)
    (h : q.TranslateTime w x = (out, none)) :
    (x = "" ∧ out = "") ∨ (x ≠ "" ∧ ∃ t : Time, out = formatRFC3339UTC t) := by
  rcases TranslateTime_outcomes q w x with ⟨hx, hr⟩ | ⟨hx, t, hr, _⟩ | ⟨hx, hr⟩
  · left
    rw [hr] at h
    exact ⟨hx, (Prod.mk.inj h).1.symm⟩
  · right
    rw [hr] at h
    exact ⟨hx, t, (Prod.mk.inj h).1.symm⟩
  · rw [hr] at h
    exact absurd (Prod.mk.inj h).2 (by simp)

/-- `TranslateTime` does not look at its receiver. -/
theorem TranslateTime_receiver (q q2 : LQLQuery) (w : World) (x : String) :
    q.TranslateTime w x = q2.TranslateTime w x := rfl

/-- The result of `Translate`, step by step: the query after `TranslateQuery`,
the resolved start, and the end, resolved when `TranslateTime` accepts it and
left as it was otherwise. -/
theorem Translate_success (q : LQLQuery) (w : World) (h : (q.Translate w).2 = none) :
    ∃ start : String, q.TranslateQuery.2 = none ∧
      q.TranslateTime w q.TranslateQuery.1.StartTimeRange = (start, none) ∧
      (q.Translate w).1.StartTimeRange = start ∧
      (q.Translate w).1.QueryText = q.TranslateQuery.1.QueryText ∧
      ((∃ stop, q.TranslateTime w q.TranslateQuery.1.EndTimeRange = (stop, none) ∧
          (q.Translate w).1.EndTimeRange = stop) ∨
       ((q.TranslateTime w q.TranslateQuery.1.EndTimeRange).2 ≠ none ∧
          (q.Translate w).1.EndTimeRange = q.TranslateQuery.1.EndTimeRange)) := by
  unfold LQLQuery.Translate at h ⊢
  rcases hq : q.TranslateQuery with ⟨q1, e1⟩
  rw [hq] at h
  cases e1 with
  | some err => simp at h
  | none =>
    simp only [] at h ⊢
    rcases hs : q1.TranslateTime w q1.StartTimeRange with ⟨s, es⟩
    rw [hs] at h
    cases es with
    | some err => simp at h
    | none =>
      simp only [] at h ⊢
      have hs2 : q.TranslateTime w q1.StartTimeRange = (s, none) := hs
      refine ⟨s, trivial, hs2, ?_⟩
      rw [show LQLQuery.TranslateTime { q1 with StartTimeRange := s } w q1.EndTimeRange
        = q.TranslateTime w q1.EndTimeRange from rfl]
      rcases he : q.TranslateTime w q1.EndTimeRange with ⟨e, ee⟩
      cases ee with
      | some err =>
        refine ⟨rfl, rfl, Or.inr ⟨by simp, rfl⟩⟩
      | none =>
        exact ⟨rfl, rfl, Or.inl ⟨e, rfl, rfl⟩⟩

/-- A failing `TranslateTime` was given a non-empty text that `time.Parse`
rejects. -/
theorem TranslateTime_failure (q : LQLQuery) (w : World) (x : String)
    (h : (q.TranslateTime w x).2 ≠ none) :
    x ≠ "" ∧ timeParse x = .error (.parseError x) := by
  unfold LQLQuery.TranslateTime at h
  by_cases hx : x = ""
  · simp [hx] at h
  · refine ⟨hx, ?_⟩
    simp only [hx, if_false] at h
    cases hrel : w.ParseRelative x with
    | some t =>
      rw [hrel] at h
      simp at h
    | none =>
      rw [hrel] at h
      simp only [] at h
      unfold timeParse at h ⊢
      cases hp : parseRFC3339 x.data with
      | some t =>
        rw [hp] at h
        simp at h
      | none => rfl

/-- What a passing `ValidateRange` has established: each bound parsed, or was
empty under the policy that allows it and took its default, and the start is not
after the end. -/
theorem ValidateRange_none (q : LQLQuery) (w : World) (allowEmptyTimes : Bool)
    (h : q.ValidateRange w allowEmptyTimes = none) :
    ∃ s e : Time,
      ((q.StartTimeRange ≠ "" ∧ timeParse q.StartTimeRange = .ok s) ∨
        (q.StartTimeRange = "" ∧ allowEmptyTimes = true ∧ s = Unix 0 0)) ∧
      ((q.EndTimeRange ≠ "" ∧ timeParse q.EndTimeRange = .ok e) ∨
        (q.EndTimeRange = "" ∧ allowEmptyTimes = true ∧ e = w.Now)) ∧
      s.After e = false := by
  unfold LQLQuery.ValidateRange at h
  have hfin : ∀ s e : Time,
      (if s.After e = true then some rangeOrderError else none) = none → s.After e = false := by
    intro s e h1
    cases ha : s.After e with
    | false => rfl
    | true =>
      rw [ha] at h1
      simp at h1
  by_cases hs : q.StartTimeRange = ""
  · cases allowEmptyTimes with
    | false => simp [hs] at h
    | true =>
      by_cases he : q.EndTimeRange = ""
      · simp only [hs, he, ne_eq, not_true_eq_false, if_false, if_true] at h
        exact ⟨Unix 0 0, w.Now, Or.inr ⟨hs, rfl, rfl⟩, Or.inr ⟨he, rfl, rfl⟩, hfin _ _ h⟩
      · simp only [hs, he, ne_eq, not_true_eq_false, not_false_eq_true, if_false, if_true] at h
        cases hp : timeParse q.EndTimeRange with
        | error err =>
          rw [hp] at h
          simp at h
        | ok e =>
          rw [hp] at h
          exact ⟨Unix 0 0, e, Or.inr ⟨hs, rfl, rfl⟩, Or.inl ⟨he, rfl⟩, hfin _ _ h⟩
  · simp only [hs, ne_eq, not_false_eq_true, if_true] at h
    cases hps : timeParse q.StartTimeRange with
    | error err =>
      rw [hps] at h
      simp at h
    | ok s =>
      rw [hps] at h
      simp only [] at h
      by_cases he : q.EndTimeRange = ""
      · cases allowEmptyTimes with
        | false => simp [he] at h
        | true =>
          simp only [he, not_true_eq_false, if_false, if_true] at h
          exact ⟨s, w.Now, Or.inl ⟨hs, rfl⟩, Or.inr ⟨he, rfl, rfl⟩, hfin _ _ h⟩
      · simp only [he, not_false_eq_true, if_true] at h
        cases hp : timeParse q.EndTimeRange with
        | error err =>
          rw [hp] at h
          simp at h
        | ok e =>
          rw [hp] at h
          exact ⟨s, e, Or.inl ⟨hs, rfl⟩, Or.inl ⟨he, rfl⟩, hfin _ _ h⟩

/-- C11, as amended: when `Translate` returns no error, `StartTimeRange` is
empty or the RFC 3339 UTC rendering of an instant, which is a canonical
timestamp exactly when the UTC year of the instant lies in 0..9999; the same
holds of `EndTimeRange` whenever `TranslateTime` resolves the end expression
without error. -/
theorem Translate_bounds (q : LQLQuery) (w : World) (h : (q.Translate w).2 = none) :
    ((q.Translate w).1.StartTimeRange = "" ∨
      ∃ t : Time, (q.Translate w).1.StartTimeRange = formatRFC3339UTC t ∧
        (IsCanonicalTimestamp (formatRFC3339UTC t) ↔ (0 ≤ utcYear t ∧ utcYear t ≤ 9999))) ∧
    ((q.TranslateTime w q.TranslateQuery.1.EndTimeRange).2 = none →
      ((q.Translate w).1.EndTimeRange = "" ∨
        ∃ t : Time, (q.Translate w).1.EndTimeRange = formatRFC3339UTC t ∧
          (IsCanonicalTimestamp (formatRFC3339UTC t) ↔ (0 ≤ utcYear t ∧ utcYear t ≤ 9999)))) := by
  obtain ⟨start, _, hstart, hs, _, hend⟩ := Translate_success q w h
  constructor
  · rcases TranslateTime_success q w _ _ hstart with ⟨_, h0⟩ | ⟨_, t, ht⟩
    · left
      rw [hs, h0]
    · right
      exact ⟨t, by rw [hs, ht], formatRFC3339UTC_canonical_iff t⟩
  · intro hres
    rcases hend with ⟨stop, hstop, he⟩ | ⟨hfail, _⟩
    · rcases TranslateTime_success q w _ _ hstop with ⟨_, h0⟩ | ⟨_, t, ht⟩
      · left
        rw [he, h0]
      · right
        exact ⟨t, by rw [he, ht], formatRFC3339UTC_canonical_iff t⟩
    · exact absurd hres hfail

/-- C11, as amended, on an epoch-millisecond start and an RFC 3339 end. -/
theorem Translate_bounds_witness :
    (((textQuery "q(x) \x7b" "1594927200000" "2020-07-17T00:00:00+02:00").Translate
        (absoluteWorld someNow)).1.StartTimeRange = "" ∨
      ∃ t : Time, ((textQuery "q(x) \x7b" "1594927200000" "2020-07-17T00:00:00+02:00").Translate
          (absoluteWorld someNow)).1.StartTimeRange = formatRFC3339UTC t ∧
        (IsCanonicalTimestamp (formatRFC3339UTC t) ↔ (0 ≤ utcYear t ∧ utcYear t ≤ 9999))) ∧
    (((textQuery "q(x) \x7b" "1594927200000" "2020-07-17T00:00:00+02:00").TranslateTime
        (absoluteWorld someNow)
        (textQuery "q(x) \x7b" "1594927200000"
          "2020-07-17T00:00:00+02:00").TranslateQuery.1.EndTimeRange).2 = none →
      (((textQuery "q(x) \x7b" "1594927200000" "2020-07-17T00:00:00+02:00").Translate
          (absoluteWorld someNow)).1.EndTimeRange = "" ∨
        ∃ t : Time, ((textQuery "q(x) \x7b" "1594927200000" "2020-07-17T00:00:00+02:00").Translate
            (absoluteWorld someNow)).1.EndTimeRange = formatRFC3339UTC t ∧
          (IsCanonicalTimestamp (formatRFC3339UTC t) ↔
            (0 ≤ utcYear t ∧ utcYear t ≤ 9999)))) :=
  Translate_bounds (textQuery "q(x) \x7b" "1594927200000" "2020-07-17T00:00:00+02:00")
    (absoluteWorld someNow) (by decide)

/-- C11 fails as stated: `Translate` returns no error on the start expression
`9999-12-31T23:59:59-01:00` and leaves `10000-01-01T00:59:59Z` in
`StartTimeRange`, which is neither empty nor of the canonical shape. -/
theorem Translate_five_digit_year :
    (textQuery "q(x) \x7b" "9999-12-31T23:59:59-01:00" "").Translate (absoluteWorld someNow)
      = (textQuery "q(x) \x7b" "10000-01-01T00:59:59Z" "", none) ∧
    ("10000-01-01T00:59:59Z" : String) ≠ "" ∧
    isCanonicalUTC "10000-01-01T00:59:59Z" = false := by
  decide

/-- C16: when `Validate` returns no error, the query it leaves has a non-empty
`QueryText`; each of `StartTimeRange` and `EndTimeRange` is empty, or parses as
RFC 3339 and is a successful output of `TranslateTime`; and under
`allowEmptyTimes = false` both are non-empty and the start instant is not after
the end instant. -/
theorem Validate_success (q : LQLQuery) (w : World) (allowEmptyTimes : Bool)
    (h : (q.Validate w allowEmptyTimes).2 = none) :
    (q.Validate w allowEmptyTimes).1.QueryText ≠ "" ∧
    ((q.Validate w allowEmptyTimes).1.StartTimeRange = "" ∨
      ((∃ s, timeParse (q.Validate w allowEmptyTimes).1.StartTimeRange = .ok s) ∧
        ∃ x, q.TranslateTime w x = ((q.Validate w allowEmptyTimes).1.StartTimeRange, none))) ∧
    ((q.Validate w allowEmptyTimes).1.EndTimeRange = "" ∨
      ((∃ e, timeParse (q.Validate w allowEmptyTimes).1.EndTimeRange = .ok e) ∧
        ∃ x, q.TranslateTime w x = ((q.Validate w allowEmptyTimes).1.EndTimeRange, none))) ∧
    (allowEmptyTimes = false →
      (q.Validate w allowEmptyTimes).1.StartTimeRange ≠ "" ∧
      (q.Validate w allowEmptyTimes).1.EndTimeRange ≠ "" ∧
      ∃ s e, timeParse (q.Validate w allowEmptyTimes).1.StartTimeRange = .ok s ∧
        timeParse (q.Validate w allowEmptyTimes).1.EndTimeRange = .ok e ∧
        s.After e = false) := by
  -- the three steps of `Validate`
  have hsteps : (q.Translate w).2 = none ∧
      (q.Translate w).1.ValidateRange w allowEmptyTimes = none ∧
      (q.Translate w).1.QueryText ≠ "" ∧
      (q.Validate w allowEmptyTimes).1 = (q.Translate w).1 := by
    unfold LQLQuery.Validate at h ⊢
    rcases ht : q.Translate w with ⟨q1, e1⟩
    rw [ht] at h
    cases e1 with
    | some err => simp at h
    | none =>
      simp only [] at h ⊢
      cases hr : q1.ValidateRange w allowEmptyTimes with
      | some err =>
        rw [hr] at h
        simp at h
      | none =>
        rw [hr] at h
        simp only [] at h ⊢
        by_cases hq : q1.QueryText = ""
        · simp [hq] at h
        · simp [hq]
  obtain ⟨htr, hvr, htext, hres⟩ := hsteps
  rw [hres]
  obtain ⟨start, _, hstart, hs, _, hend⟩ := Translate_success q w htr
  obtain ⟨s, e, hS, hE, hafter⟩ := ValidateRange_none _ w allowEmptyTimes hvr
  -- the end expression was resolved: a raw one would not pass `ValidateRange`
  have hresolved : ∃ stop, q.TranslateTime w q.TranslateQuery.1.EndTimeRange = (stop, none) ∧
      (q.Translate w).1.EndTimeRange = stop := by
    rcases hend with hok | ⟨hfail, hraw⟩
    · exact hok
    · obtain ⟨hne, hperr⟩ := TranslateTime_failure q w _ hfail
      rw [← hraw] at hne hperr
      rcases hE with ⟨_, hp⟩ | ⟨he0, _⟩
      · rw [hperr] at hp
        exact absurd hp (by simp)
      · exact absurd he0 hne
  obtain ⟨stop, hstop, he⟩ := hresolved
  refine ⟨htext, ?_, ?_, ?_⟩
  · rcases hS with ⟨_, hp⟩ | ⟨h0, _⟩
    · right
      exact ⟨⟨s, hp⟩, _, by rw [hs]; exact hstart⟩
    · left
      exact h0
  · rcases hE with ⟨_, hp⟩ | ⟨h0, _⟩
    · right
      exact ⟨⟨e, hp⟩, _, by rw [he]; exact hstop⟩
    · left
      exact h0
  · intro hallow
    rcases hS with ⟨hne, hp⟩ | ⟨_, ht, _⟩
    · rcases hE with ⟨hne2, hp2⟩ | ⟨_, ht2, _⟩
      · exact ⟨hne, hne2, s, e, hp, hp2, hafter⟩
      · rw [hallow] at ht2
        exact absurd ht2 (by decide)
    · rw [hallow] at ht
      exact absurd ht (by decide)

/-! ## Epoch milliseconds -/

/-- `strconv.ParseInt` rejects the empty text. -/
theorem ParseInt_ne_empty (x : String) (i : Int) (h : ParseInt x = some i) : x ≠ "" := by
  intro hx
  subst hx
  have h0 : ParseInt "" = none := by decide
  rw [h0] at h
  exact absurd h (by simp)

/-- `time.Unix(0, n)` is the instant `n` nanoseconds after the epoch. -/
theorem Unix_zero_eq (n : Int) (h1 : -9223372036854775808 ≤ n)
    (h2 : n < 9223372036854775808) :
    Unix 0 n = { sec := n / 1000000000, nsec := (n % 1000000000).toNat } := by
  obtain ⟨b1, b2, b3, b4⟩ := tdiv_bounds n h1 h2
  have hm : n.tdiv 1000000000 = n / 1000000000 ∨ n.tdiv 1000000000 = n / 1000000000 + 1 := by
    by_cases hn : 0 ≤ n
    · left
      exact Int.tdiv_eq_ediv hn (by norm_num)
    · have e : n.tdiv 1000000000 = -((-n) / 1000000000) := by
        have h := Int.neg_tdiv (-n) 1000000000
        rw [Int.neg_neg] at h
        rw [h, Int.tdiv_eq_ediv (by omega) (by norm_num)]
      rw [e]
      omega
  unfold Unix
  generalize n.tdiv 1000000000 = m at b1 b2 b3 b4 hm ⊢
  have e1 : toInt64 (0 + m) = m := by
    rw [toInt64_id _ (by omega) (by omega)]
    omega
  have e2 : toInt64 (n - m * 1000000000) = n - m * 1000000000 :=
    toInt64_id _ (by omega) (by omega)
  have e3 : toInt64 (m - 1) = m - 1 := toInt64_id _ (by omega) (by omega)
  simp only [e1, e2, e3]
  split
  · split
    · have hs : m - 1 = n / 1000000000 := by omega
      have hn : (n - m * 1000000000 + 1000000000).toNat = (n % 1000000000).toNat := by omega
      rw [hn, hs]
    · have hs : m = n / 1000000000 := by omega
      have hn : (n - m * 1000000000).toNat = (n % 1000000000).toNat := by omega
      rw [hn, hs]
  · have hs : (0 : Int) = n / 1000000000 := by omega
    have hn : n.toNat = (n % 1000000000).toNat := by omega
    rw [← hs, hn]

/-- Within `±9223372036854` milliseconds the product with `time.Millisecond`
does not wrap, and `time.Unix` gives the instant that many milliseconds after
the epoch. -/
theorem Unix_millis (i : Int) (h1 : -9223372036854 ≤ i) (h2 : i ≤ 9223372036854) :
    Unix 0 (toInt64 (i * Millisecond)) = instantOfMillis i := by
  unfold Millisecond instantOfMillis
  rw [toInt64_id _ (by omega) (by omega), Unix_zero_eq _ (by omega) (by omega)]
  have hs : i * 1000000 / 1000000000 = i / 1000 := by omega
  have hn : (i * 1000000 % 1000000000).toNat = (i % 1000 * 1000000).toNat := by omega
  rw [hs, hn]

/-- The range in which C13 holds: on a text that the relative and RFC 3339
grammars reject and that reads as the 64-bit integer `i`, `TranslateTime`
returns no error and the canonical timestamp of the instant whose nanosecond
count is the `int64` product of `i` and `time.Millisecond`; for `i` within
`±9223372036854` the product does not wrap and the result is the canonical
timestamp of the instant exactly `i` milliseconds after the Unix epoch. -/
theorem TranslateTime_millis_instant (q : LQLQuery) (w : World) (x : String) (i : Int)
    (hrel : w.ParseRelative x = none) (hrfc : ∀ u, timeParse x ≠ .ok u)
    (hint : ParseInt x = some i) :
    q.TranslateTime w x = (formatRFC3339UTC (Unix 0 (toInt64 (i * Millisecond))), none) ∧
    IsCanonicalTimestamp (formatRFC3339UTC (Unix 0 (toInt64 (i * Millisecond)))) ∧
    (-9223372036854 ≤ i → i ≤ 9223372036854 →
      q.TranslateTime w x = (formatRFC3339UTC (instantOfMillis i), none)) := by
  have hx := ParseInt_ne_empty x i hint
  have hres : q.TranslateTime w x
      = (formatRFC3339UTC (Unix 0 (toInt64 (i * Millisecond))), none) := by
    unfold LQLQuery.TranslateTime
    simp only [hx, if_false, hrel]
    cases hp : timeParse x with
    | ok t => exact absurd hp (hrfc t)
    | error e => simp only [hint]
  refine ⟨hres, ?_, ?_⟩
  · obtain ⟨b1, b2⟩ := toInt64_bounds (i * Millisecond)
    obtain ⟨s1, s2⟩ := Unix_zero_sec _ b1 b2
    obtain ⟨y1, y2⟩ := utcYear_of_sec _ s1 s2
    exact formatRFC3339UTC_canonical _ y1 y2
  · intro h1 h2
    rw [hres, Unix_millis i h1 h2]

/-- The epoch-millisecond conversion at `1594927200000`. -/
theorem TranslateTime_millis_instant_witness :
    (blobQuery "").TranslateTime (absoluteWorld someNow) "1594927200000"
      = (formatRFC3339UTC (Unix 0 (toInt64 (1594927200000 * Millisecond))), none) ∧
    IsCanonicalTimestamp (formatRFC3339UTC (Unix 0 (toInt64 (1594927200000 * Millisecond)))) ∧
    (-9223372036854 ≤ (1594927200000 : Int) → (1594927200000 : Int) ≤ 9223372036854 →
      (blobQuery "").TranslateTime (absoluteWorld someNow) "1594927200000"
        = (formatRFC3339UTC (instantOfMillis 1594927200000), none)) :=
  TranslateTime_millis_instant (blobQuery "") (absoluteWorld someNow) "1594927200000"
    1594927200000 rfl (fun u h => by simp [timeParse, show parseRFC3339 "1594927200000".data = none from by decide] at h)
    (by decide)

/-- C13, what the code does at `9223372036855`: the text reads as an integer,
the `int64` product with `time.Millisecond` wraps to a negative count, and the
result is `1677-09-21T00:12:43Z`, while the instant 9223372036855 milliseconds
after the Unix epoch is `2262-04-11T23:47:16Z`. -/
theorem TranslateTime_millis_wraps :
    ParseInt "9223372036855" = some 9223372036855 ∧
    (blobQuery "").TranslateTime (absoluteWorld someNow) "9223372036855"
      = ("1677-09-21T00:12:43Z", none) ∧
    formatRFC3339UTC (instantOfMillis 9223372036855) = "2262-04-11T23:47:16Z" ∧
    toInt64 (9223372036855 * Millisecond) = -9223372036854551616 := by
  decide

/-! ## The signature pattern -/

/-- A run of characters of a class, followed by a character outside it, is what
`takeWhile` takes and `dropWhile` leaves. -/
theorem takeWhile_run (p : Char → Bool) (run : List Char) (c : Char) (tl : List Char)
    (hrun : ∀ x ∈ run, p x = true) (hc : p c = false) :
    (run ++ c :: tl).takeWhile p = run ∧ (run ++ c :: tl).dropWhile p = c :: tl := by
  induction run with
  | nil => simp [List.takeWhile, List.dropWhile, hc]
  | cons a run ih =>
    have ha : p a = true := hrun a (List.mem_cons_self _ _)
    have ih2 := ih (fun x hx => hrun x (List.mem_cons_of_mem _ hx))
    simp [List.takeWhile, List.dropWhile, ha, ih2.1, ih2.2]

/-- The pattern matches at the head of an identifier, a parameter list, white
space and a brace. -/
theorem matchHere_signature (ident params ws rest : List Char)
    (hident : ident ≠ [] ∧ ∀ c ∈ ident, isWordChar c = true)
    (hparams : params ≠ [] ∧ ∀ c ∈ params, c ≠ ')')
    (hws : ∀ c ∈ ws, isReSpace c = true) :
    matchHere (ident ++ '(' :: (params ++ ')' :: (ws ++ '{' :: rest))) = true := by
  obtain ⟨h1, h2⟩ := takeWhile_run isWordChar ident '(' (params ++ ')' :: (ws ++ '{' :: rest))
    hident.2 (by decide)
  obtain ⟨h3, h4⟩ := takeWhile_run (fun x => decide (x ≠ ')')) params ')' (ws ++ '{' :: rest)
    (fun x hx => by simpa using hparams.2 x hx) (by decide)
  obtain ⟨_, h6⟩ := takeWhile_run isReSpace ws '{' rest hws (by decide)
  unfold matchHere
  rw [h1, h2]
  obtain ⟨a, l, hl⟩ := List.exists_cons_of_ne_nil hident.1
  obtain ⟨b, m, hm⟩ := List.exists_cons_of_ne_nil hparams.1
  rw [hl]
  simp only [if_true]
  rw [h3, h4, hm]
  simp only [h6, decide_True]

/-- A match at the start of the text or right after a line feed is found by the
search. -/
theorem searchLines_found (pre s : List Char) (lineStart : Bool)
    (hpre : (pre = [] ∧ lineStart = true) ∨ pre.getLast? = some '\n')
    (hs : matchHere s = true) :
    searchLines lineStart (pre ++ s) = true := by
  induction pre generalizing lineStart with
  | nil =>
    have hstart : lineStart = true := by
      rcases hpre with ⟨_, h⟩ | h
      · exact h
      · simp at h
    cases s with
    | nil =>
      have h0 : matchHere [] = false := by decide
      rw [h0] at hs
      exact absurd hs (by decide)
    | cons c rest =>
      simp [searchLines, hstart, hs]
  | cons a pre ih =>
    have hlast : (a :: pre).getLast? = some '\n' := by
      rcases hpre with ⟨h, _⟩ | h
      · simp at h
      · exact h
    simp only [List.cons_append, searchLines, Bool.or_eq_true]
    right
    apply ih
    cases pre with
    | nil =>
      left
      simp only [List.getLast?_singleton, Option.some.injEq] at hlast
      exact ⟨rfl, by simp [hlast]⟩
    | cons b pre2 =>
      right
      rw [List.getLast?_cons_cons] at hlast
      exact hlast

/-- C14, as amended: with an empty `QueryText` and a blob that does not decode
as JSON, `TranslateQuery` succeeds and sets `QueryText` to the whole blob when
the blob holds, at its start or right after a line feed, an identifier of word
characters directly followed by a non-empty parenthesized parameter list,
optional white space and an opening brace. -/
theorem TranslateQuery_signature (q : LQLQuery) (pre ident params ws rest : List Char)
    (hq : q.QueryText = "") (hjson : jsonUnmarshal q.QueryBlob = none)
    (hblob : q.QueryBlob
      = String.mk (pre ++ (ident ++ '(' :: (params ++ ')' :: (ws ++ '{' :: rest)))))
    (hpre : pre = [] ∨ pre.getLast? = some '\n')
    (hident : ident ≠ [] ∧ ∀ c ∈ ident, isWordChar c = true)
    (hparams : params ≠ [] ∧ ∀ c ∈ params, c ≠ ')')
    (hws : ∀ c ∈ ws, isReSpace c = true) :
    q.TranslateQuery = ({ q with QueryText := q.QueryBlob }, none) := by
  have hm : MatchString q.QueryBlob = true := by
    unfold MatchString
    rw [hblob]
    apply searchLines_found
    · rcases hpre with h | h
      · exact Or.inl ⟨h, rfl⟩
      · exact Or.inr h
    · exact matchHere_signature ident params ws rest hident hparams hws
  simp [LQLQuery.TranslateQuery, hq, hjson, hm]

/-- C14, as amended, on a signature that opens the second line of the blob. -/
theorem TranslateQuery_signature_witness :
    (blobQuery "-- c\nmy_lql(x) \x7b").TranslateQuery
      = ({ blobQuery "-- c\nmy_lql(x) \x7b" with QueryText := "-- c\nmy_lql(x) \x7b" }, none) :=
  TranslateQuery_signature (blobQuery "-- c\nmy_lql(x) \x7b")
    ['-', '-', ' ', 'c', '\n'] ['m', 'y', '_', 'l', 'q', 'l'] ['x'] [' '] []
    (by decide) (by decide) (by decide) (Or.inr (by decide)) (by decide) (by decide) (by decide)

/-- C14 fails as stated: a signature that starts later in its line is not
matched, and the blobs `  my_lql(x) {` and `-- c my_lql(x) {` are rejected. -/
theorem TranslateQuery_signature_midline :
    jsonUnmarshal "  my_lql(x) \x7b" = none ∧
    (blobQuery "  my_lql(x) \x7b").TranslateQuery
      = (blobQuery "  my_lql(x) \x7b", some (GoError.errorsNew "unable to translate query blob")) ∧
    jsonUnmarshal "-- c my_lql(x) \x7b" = none ∧
    (blobQuery "-- c my_lql(x) \x7b").TranslateQuery
      = (blobQuery "-- c my_lql(x) \x7b",
          some (GoError.errorsNew "unable to translate query blob")) := by
  decide

set_option maxRecDepth 100000 in
/-- C16 on a record blob under `allowEmptyTimes = false`. -/
theorem Validate_success_witness :
    ((blobQuery recordBlob).Validate (absoluteWorld someNow) false).1.QueryText ≠ "" ∧
    (((blobQuery recordBlob).Validate (absoluteWorld someNow) false).1.StartTimeRange = "" ∨
      ((∃ s, timeParse ((blobQuery recordBlob).Validate (absoluteWorld someNow)
          false).1.StartTimeRange = .ok s) ∧
        ∃ x, (blobQuery recordBlob).TranslateTime (absoluteWorld someNow) x
          = (((blobQuery recordBlob).Validate (absoluteWorld someNow) false).1.StartTimeRange,
              none))) ∧
    (((blobQuery recordBlob).Validate (absoluteWorld someNow) false).1.EndTimeRange = "" ∨
      ((∃ e, timeParse ((blobQuery recordBlob).Validate (absoluteWorld someNow)
          false).1.EndTimeRange = .ok e) ∧
        ∃ x, (blobQuery recordBlob).TranslateTime (absoluteWorld someNow) x
          = (((blobQuery recordBlob).Validate (absoluteWorld someNow) false).1.EndTimeRange,
              none))) ∧
    (false = false →
      ((blobQuery recordBlob).Validate (absoluteWorld someNow) false).1.StartTimeRange ≠ "" ∧
      ((blobQuery recordBlob).Validate (absoluteWorld someNow) false).1.EndTimeRange ≠ "" ∧
      ∃ s e, timeParse ((blobQuery recordBlob).Validate (absoluteWorld someNow)
            false).1.StartTimeRange = .ok s ∧
        timeParse ((blobQuery recordBlob).Validate (absoluteWorld someNow)
            false).1.EndTimeRange = .ok e ∧
        s.After e = false) :=
  Validate_success (blobQuery recordBlob) (absoluteWorld someNow) false (by decide)

end LQL

namespace CLI

/-! ## The failure of `GetOrganizationInfo` -/

/-- C17, what the code does: when `VerifySettings` succeeds and
`GetOrganizationInfo` fails, `MigrateProfile` panics, because it calls `Error()`
on the named result `err`, which is `nil`, instead of on `errOrgInfo`; no error
is returned, no profile is stored, the event's error is not set, and the
deferred function, which finds `err` to be `nil`, sends the event. -/
theorem MigrateProfile_orgInfo_error (env : Collaborators) (c : cliState) (e : CliError)
    (hv : env.VerifySettings = none) (ho : env.GetOrganizationInfo.2 = some e) :
    (MigrateProfile env c).outcome = Outcome.panicked ∧
    (∀ err, (MigrateProfile env c).outcome ≠ Outcome.returned err) ∧
    (MigrateProfile env c).stored = [] ∧
    (MigrateProfile env c).state.Event.Error = c.Event.Error ∧
    (MigrateProfile env c).honeyvents = 1 := by
  rcases hg : env.GetOrganizationInfo with ⟨account, errOrgInfo⟩
  rw [hg] at ho
  simp only [] at ho
  subst ho
  have hbody : ∀ c2 : cliState, migrateBody env c2
      = { state := c2, stored := [], outcome := .panicked, err := none } := by
    intro c2
    simp [migrateBody, hv, hg]
  simp [MigrateProfile, hbody]

/-- C17 on the collaborators `orgInfoFails`. -/
theorem MigrateProfile_orgInfo_error_witness :
    (MigrateProfile orgInfoFails someState).outcome = Outcome.panicked ∧
    (∀ err, (MigrateProfile orgInfoFails someState).outcome ≠ Outcome.returned err) ∧
    (MigrateProfile orgInfoFails someState).stored = [] ∧
    (MigrateProfile orgInfoFails someState).state.Event.Error = someState.Event.Error ∧
    (MigrateProfile orgInfoFails someState).honeyvents = 1 :=
  MigrateProfile_orgInfo_error orgInfoFails someState
    (.external "unable to get organization info") rfl rfl

end CLI
